import Mathlib

/-!
Shallow embedding of the `classifier` repository's detection / validation /
conflict-resolution pipeline, together with theorems settling the claims
about it.

Conventions used throughout:
* Python strings are modelled as `String` / `List Char`; character class
  tests (`isdigit`, `isalpha`) use the ASCII semantics of `Char.isDigit` /
  `Char.isAlpha` (all concrete inputs appearing in theorems are ASCII).
* Python floats (confidence scores) are modelled as `ℚ`; the only float
  operations the embedded code performs are comparisons and truthiness
  tests, which are exact on the rationals appearing here.
* External collaborators (the `stdnum` library, `dateutil.parser.parse`,
  the arbitration LLM call) are parameters of the embedding.
* Python `try/except` around pure code is modelled by `Option`/explicit
  branching where an exception can actually occur.
-/

/-- Python `s[i]` character lookup with Python's negative-index semantics:
a negative index `i` addresses `len + i`; an out-of-range index raises
`IndexError`, modelled as `none`. -/
def pyCharAt (s : List Char) (i : Int) : Option Char :=
  if i ≥ 0 then
    s.get? i.toNat
  else if (-i) ≤ (s.length : Int) then
    s.get? (s.length - (-i).toNat)
  else
    none

/-- Python slice `s[a:b]` for non-negative bounds: characters with indices
`a ≤ i < min b (len s)`; empty when `b ≤ a`. -/
def pySlice (s : String) (a b : Nat) : String :=
  String.mk ((s.toList.drop a).take (b - a))

/-- Python `str.lower()` restricted to ASCII case mapping. -/
def pyLower (s : String) : String :=
  String.mk (s.toList.map Char.toLower)

/-- Python `re.sub(r"\D", "", value)`: the digit characters of `value`. -/
def digitChars (s : String) : List Char :=
  s.toList.filter Char.isDigit

/-- The numeric values of the digit characters of `s`
(Python `[int(c) for c in s if c.isdigit()]`). -/
def digitVals (s : String) : List Nat :=
  (digitChars s).map (fun c => c.toNat - 48)

/-- `is_valid_email` from `result_validation.py`: `"@" in email and "." in email`. -/
def is_valid_email (email : String) : Bool :=
  email.toList.contains '@' && email.toList.contains '.'

/-- `is_valid_name` from `result_validation.py`:
`len(name) > 5 and sum(c.isdigit() for c in name) < 3`. -/
def is_valid_name (name : String) : Bool :=
  decide (5 < name.length) && decide ((digitChars name).length < 3)

/-- `is_valid_numeric_field` from `result_validation.py`:
`bool(re.search(r"[A-Za-z]+", field_value))`, i.e. the value contains at
least one ASCII letter. -/
def is_valid_numeric_field (field_value : String) : Bool :=
  field_value.toList.any Char.isAlpha

/-- `count_alphabets` from `result_validation.py`. -/
def count_alphabets (s : String) : Nat :=
  (s.toList.filter Char.isAlpha).length

/-- The shared loop body of the three `has_consecutive_*_numbers` functions:
Python's
`count = 1; for i in range(1, len(digits)): if step digits[i-1] digits[i]:
count += 1; if count >= min_consecutive: return True; else: count = 1`,
with `prev` the previous digit and `count` the current run length. -/
def consecScan (step : Nat → Nat → Bool) (minc : Nat) :
    Nat → Nat → List Nat → Bool
  | _, _, [] => false
  | prev, count, d :: rest =>
    if step prev d then
      if minc ≤ count + 1 then true
      else consecScan step minc d (count + 1) rest
    else
      consecScan step minc d 1 rest

/-- The common shape of `has_consecutive_increasing_numbers`,
`has_consecutive_decreasing_numbers` and `has_consecutive_repetitive_numbers`
(`result_validation.py`, identical bodies up to the digit comparison):
extract the digit characters, return `False` when fewer than
`min_consecutive` digits or when `s` contains a non-digit character,
otherwise scan for a run. -/
def hasConsecutiveRun (step : Nat → Nat → Bool) (s : String) : Bool :=
  let digits := digitVals s
  if digits.length < 5 then false
  else if digits.length ≠ s.length then false
  else
    match digits with
    | [] => false
    | d :: rest => consecScan step 5 d 1 rest

/-- `has_consecutive_increasing_numbers` (`digits[i] == digits[i-1] + 1`). -/
def has_consecutive_increasing_numbers (s : String) : Bool :=
  hasConsecutiveRun (fun a b => b == a + 1) s

/-- `has_consecutive_decreasing_numbers` (`digits[i] == digits[i-1] - 1`
over the integers, i.e. `digits[i] + 1 == digits[i-1]`). -/
def has_consecutive_decreasing_numbers (s : String) : Bool :=
  hasConsecutiveRun (fun a b => b + 1 == a) s

/-- `has_consecutive_repetitive_numbers` (`digits[i] == digits[i-1]`;
the Python version compares digit characters, which on digit characters
coincides with comparing their numeric values). -/
def has_consecutive_repetitive_numbers (s : String) : Bool :=
  hasConsecutiveRun (fun a b => b == a) s

/-- Length of the maximal chain continuing from previous digit `p`:
each successive element must satisfy `step` with its predecessor. -/
def chainFrom (step : Nat → Nat → Bool) (p : Nat) : List Nat → Nat
  | [] => 0
  | d :: r => if step p d then 1 + chainFrom step d r else 0

/-- Length of the maximal initial chain of a digit list. -/
def runLen (step : Nat → Nat → Bool) : List Nat → Nat
  | [] => 0
  | d :: r => 1 + chainFrom step d r

/-- Spec-side predicate (from the spec's words, for comparison with the
source heuristics): the digit sequence of `s` contains, starting at some
position, a run of at least `n` digits in which each digit stands in
relation `step` to its predecessor. -/
def containsStepRun (step : Nat → Nat → Bool) (n : Nat) (s : String) : Bool :=
  (digitVals s).tails.any (fun t => n ≤ runLen step t)

/-- External library calls made by the validation helpers: `stdnum.us.ssn.is_valid`,
`stdnum.us.itin.is_valid`, and `dateutil.parser.parse` (modelled as a success
predicate: `true` when parsing succeeds, `false` when it raises `ParserError`). -/
structure ExtLibs where
  ssnValid : String → Bool
  itinValid : String → Bool
  dateParseOk : String → Bool

/-- A fixed instantiation of `ExtLibs` used in concrete evaluations whose code
paths never consult the external libraries. -/
def extNone : ExtLibs :=
  ⟨fun _ => false, fun _ => false, fun _ => false⟩

/-- `is_valid_length_for_entity` from `result_validation.py`: digit-count
bounds per entity label (`ssn`/`itin` additionally call `stdnum`). -/
def is_valid_length_for_entity (ext : ExtLibs) (key_label field_value : String) : Bool :=
  let digit_value := digitChars field_value
  if pyLower key_label == "ssn" then
    digit_value.length == 9 && ext.ssnValid field_value
  else if pyLower key_label == "itin" then
    digit_value.length == 9 && ext.itinValid field_value
  else if pyLower key_label == "credit_card_number" then
    decide (12 ≤ digit_value.length) && decide (digit_value.length ≤ 19)
  else if pyLower key_label == "phone_number" then
    decide (7 ≤ digit_value.length) && decide (digit_value.length ≤ 30)
  else if pyLower key_label == "bank_account_number" then
    decide (6 ≤ digit_value.length) && decide (digit_value.length ≤ 15)
  else
    true

/-- Token of a `dob_regex` alternative: a literal character (compared
case-insensitively, ASCII case mapping), `\s+`, or `\s*`. -/
inductive DobTok where
  | lit (c : Char)
  | wsPlus
  | wsStar
deriving DecidableEq

/-- The literal characters of `s` as pattern tokens. -/
def lits (s : String) : List DobTok :=
  s.toList.map DobTok.lit

/-- Match `\s*` followed by the continuation `k`: try the continuation
after consuming each possible run of whitespace (full backtracking). -/
def matchWsStar (k : List Char → Bool) : List Char → Bool
  | [] => k []
  | x :: xs => k (x :: xs) || (x.isWhitespace && matchWsStar k xs)

/-- Match a token pattern against a prefix of `l` (unanchored on the right,
as in `re.search`). -/
def matchToks : List DobTok → List Char → Bool
  | [], _ => true
  | .lit _ :: _, [] => false
  | .lit c :: ps, x :: xs => (x.toLower == c.toLower) && matchToks ps xs
  | .wsPlus :: _, [] => false
  | .wsPlus :: ps, x :: xs => x.isWhitespace && matchWsStar (matchToks ps) xs
  | .wsStar :: ps, l => matchWsStar (matchToks ps) l

/-- The alternatives of `dob_regex` (`result_validation.py`), in source order;
`\.` and `\(`/`\)` are literal characters, `\s+`/`\s*` are whitespace tokens. -/
def dobPatterns : List (List DobTok) :=
  [ lits "Birth", lits "DOB", lits "Birthdate", lits "Born", lits "D.O.B.",
    lits "DOB",
    lits "Geburtsdatum", lits "Geburtstag",
    lits "geboren" ++ [.wsPlus] ++ lits "am",
    lits "Geb." ++ [.wsStar] ++ lits "Datum",
    lits "Date" ++ [.wsPlus] ++ lits "de" ++ [.wsPlus] ++ lits "naissance",
    lits "DDN",
    lits "Né(e)" ++ [.wsPlus] ++ lits "le",
    lits "Date" ++ [.wsPlus] ++ lits "de" ++ [.wsPlus] ++ lits "n.",
    lits "Fecha" ++ [.wsPlus] ++ lits "de" ++ [.wsPlus] ++ lits "nacimiento",
    lits "F.N.", lits "Nacimiento",
    lits "Nacido" ++ [.wsPlus] ++ lits "el",
    lits "Fecha" ++ [.wsPlus] ++ lits "nacimiento",
    lits "Fecha" ++ [.wsPlus] ++ lits "de" ++ [.wsPlus] ++ lits "n.",
    lits "Syntymäaika", lits "Syntymäpäivä", lits "Syntymä", lits "Syntynyt",
    lits "Geboortedatum",
    lits "Geboren" ++ [.wsPlus] ++ lits "op",
    lits "Geboorte",
    lits "Geb." ++ [.wsStar] ++ lits "datum",
    lits "Födelsedatum",
    lits "Född" ++ [.wsPlus] ++ lits "den",
    lits "Födelsedag", lits "Född", lits "F.d." ]

/-- `dob_regex.search(text)`: some alternative matches at some position. -/
def dobRegexSearch (text : String) : Bool :=
  text.toList.tails.any (fun t => dobPatterns.any (fun p => matchToks p t))

/-- `is_valid_date` from `result_validation.py`: length at least 8, the DOB
keyword regex must match somewhere in the surrounding text, and
`dateutil.parser.parse` must succeed (a `ParserError` is caught and yields
`False`). It performs no future-date and no maximum-age check. -/
def is_valid_date (parseOk : String → Bool) (date text : String) : Bool :=
  if date.length < 8 then false
  else if !dobRegexSearch text then false
  else parseOk date

/-- Split a character list on a single separator character (the behavior
of Python `str.split(sep)` / Lean `String.splitOn` for a one-character
separator). -/
def splitOnChar (sep : Char) : List Char → List (List Char)
  | [] => [[]]
  | c :: r =>
    let rest := splitOnChar sep r
    if c == sep then [] :: rest
    else
      match rest with
      | h :: t => (c :: h) :: t
      | [] => [[c]]

/-- Hexadecimal digit (ASCII), as in the `[a-fA-F0-9]` class. -/
def isHexChar (c : Char) : Bool :=
  c.isDigit || ('a' ≤ c && c ≤ 'f') || ('A' ≤ c && c ≤ 'F')

/-- One IPv4 octet per the pattern `25[0-5]|2[0-4][0-9]|[01]?[0-9][0-9]?`:
all digits and 1-2 characters, or 3 characters constrained as the
alternation demands. -/
def ipv4Octet (p : List Char) : Bool :=
  p.all Char.isDigit &&
    match p with
    | [_] => true
    | [_, _] => true
    | [a, b, c] =>
        (a == '0' || a == '1') ||
        (a == '2' && b ≤ '4') ||
        (a == '2' && b == '5' && c ≤ '5')
    | _ => false

/-- One IPv6 group per `[a-fA-F0-9]{1,4}`. -/
def ipv6Group (p : List Char) : Bool :=
  decide (1 ≤ p.length) && decide (p.length ≤ 4) && p.all isHexChar

/-- `is_valid_ip` from `result_validation.py`: the anchored IPv4 pattern or
one of the three anchored IPv6 alternatives matches, expressed through the
colon- and dot-separated group structure the anchored regexes describe. -/
def is_valid_ip (ip : String) : Bool :=
  let dotParts := splitOnChar '.' ip.toList
  let colonParts := splitOnChar ':' ip.toList
  (dotParts.length == 4 && dotParts.all ipv4Octet) ||
  (colonParts.length == 8 && colonParts.all ipv6Group) ||
  (match colonParts with
   | [] :: [] :: rest =>
       decide (1 ≤ rest.length) && decide (rest.length ≤ 6) && rest.all ipv6Group
   | _ => false) ||
  (match colonParts.reverse with
   | [] :: [] :: rest =>
       decide (1 ≤ rest.length) && decide (rest.length ≤ 6) && rest.all ipv6Group &&
       decide (¬ (rest.getLast? == some []))
   | _ => false)

/-- The numeric label list of `validate_extracted_data`. -/
def numericLabels : List String :=
  ["ssn", "credit_card_number", "itin", "phone_number", "bank_account_number",
   "us_bank_number", "us_bank_account_number", "credit_card", "us_ssn", "us_itin"]

/-- The IBAN-like label list of `validate_extracted_data`. -/
def ibanLabels : List String :=
  ["iban", "bban", "driver_license_number", "passport_number",
   "us_driver_license", "us_passport", "iban_code"]

/-- The label list of the second digit-sequence check of `validate_extracted_data`. -/
def seqCheckLabels : List String :=
  ["iban_code", "bban_code", "passport_number", "us_passport",
   "driver_license_number", "us_driver_license", "routing_number"]

/-- `validate_extracted_data` from `result_validation.py`: the cascade of
per-label rejection rules; labels matching no rule are accepted. -/
def validate_extracted_data (ext : ExtLibs) (label extracted_text text : String) : Bool :=
  if label == "IP_ADDRESS" || label == "ip-address" then
    decide (6 < extracted_text.length)
  else if label == "email" && !is_valid_email extracted_text then
    false
  else if (label == "name" || label == "PERSON" || label == "LLM_PERSON")
      && !is_valid_name extracted_text then
    false
  else if label == "date_of_birth" && !is_valid_date ext.dateParseOk extracted_text text then
    false
  else if numericLabels.contains (pyLower label)
      && (is_valid_numeric_field extracted_text
          || !is_valid_length_for_entity ext label extracted_text
          || has_consecutive_increasing_numbers extracted_text
          || has_consecutive_decreasing_numbers extracted_text
          || has_consecutive_repetitive_numbers extracted_text) then
    false
  else if ibanLabels.contains (pyLower label)
      && (decide (extracted_text.length < 8)
          || !(extracted_text.toList.any Char.isDigit)
          || ((label == "passport_number" || label == "driver_license_number")
              && decide (4 < count_alphabets extracted_text))) then
    false
  else if pyLower label == "ip_address" && !is_valid_ip extracted_text then
    false
  else if pyLower label == "api_key"
      && (decide (extracted_text.length < 8)
          || !(extracted_text.toList.any Char.isDigit)) then
    false
  else if seqCheckLabels.contains (pyLower label)
      && (has_consecutive_increasing_numbers extracted_text
          || has_consecutive_decreasing_numbers extracted_text
          || has_consecutive_repetitive_numbers extracted_text) then
    false
  else if pyLower label == "itin" || pyLower label == "us_itin" then
    ext.itinValid extracted_text
  else if pyLower label == "health_insurance_number"
      || pyLower label == "medical_record_number"
      || pyLower label == "license_plate_number" then
    extracted_text.toList.any Char.isDigit
  else
    true

/-- The label list guarding `is_not_part_of_decimal`. -/
def decimalLabels : List String :=
  ["ssn", "credit_card", "itin", "phone_number", "us_bank_number",
   "us_driver_license", "us_ssn", "us_itin"]

/-- The character-after check of the `try` body of
`is_not_part_of_decimal` (`result_validation.py`). -/
def decimalAfterCheck (l : List Char) (end_index : Nat) : Bool :=
  if end_index < l.length then
    match pyCharAt l end_index with
    | none => true
    | some char_after =>
      if char_after.isDigit then false
      else if char_after == '.' then
        match pyCharAt l ((end_index : Int) + 1) with
        | none => true
        | some c => if c.isDigit then false else true
      else true
  else true

/-- `is_not_part_of_decimal`, continued: the character-before check of the
`try` body, falling through to `decimalAfterCheck`; an `IndexError`
(`none`) aborts the whole body, which the handler turns into `True`. -/
def decimalBeforeCheck (l : List Char) (start_index end_index : Nat) : Bool :=
  if 0 < start_index then
    match pyCharAt l ((start_index : Int) - 1) with
    | none => true
    | some char_before =>
      if char_before.isDigit then false
      else if char_before == '.' then
        match pyCharAt l ((start_index : Int) - 2) with
        | none => true
        | some c => if c.isDigit then false else decimalAfterCheck l end_index
      else decimalAfterCheck l end_index
  else decimalAfterCheck l end_index

/-- `is_not_part_of_decimal` from `result_validation.py`: for the numeric
labels, run the before- and after-checks with Python's indexing behavior
(`text[start_index - 2]` is a negative index when `start_index = 1` and
then reads the last character; an out-of-range lookup raises `IndexError`,
which the surrounding `try/except` turns into `True`). -/
def is_not_part_of_decimal (label text : String) (start_index end_index : Nat) : Bool :=
  if decimalLabels.contains (pyLower label) then
    decimalBeforeCheck text.toList start_index end_index
  else true

/-- Spec-side decimal-adjacency predicate (from the claim's words): the
character immediately preceding the span's start, or immediately following
its end, is a digit — directly, or separated by a single decimal point
whose other side is also a digit. Lookups are plain bounded lookups: a
neighbour that does not exist never triggers rejection. -/
def isDigitOpt : Option Char → Bool
  | some c => c.isDigit
  | none => false

/-- An existing neighbour character that is a decimal point. -/
def isDotOpt : Option Char → Bool
  | some c => c == '.'
  | none => false

/-- Spec-side adjacency on the end side: the character immediately
following the span is a digit, or is a decimal point whose other side is
a digit; a neighbour that does not exist never triggers rejection. -/
def specAfterAdjacent (l : List Char) (e : Nat) : Bool :=
  isDigitOpt (l.get? e) || (isDotOpt (l.get? e) && isDigitOpt (l.get? (e + 1)))

/-- Spec-side adjacency on the start side. -/
def specBeforeAdjacent (l : List Char) (s : Nat) : Bool :=
  isDigitOpt (if 0 < s then l.get? (s - 1) else none)
  || (isDotOpt (if 0 < s then l.get? (s - 1) else none)
      && isDigitOpt (if 1 < s then l.get? (s - 2) else none))

/-- Spec-side decimal-adjacency predicate (from the claim's words): the
character immediately preceding the span's start, or immediately following
its end, is a digit — directly, or separated by a single decimal point
whose other side is also a digit. -/
def specDecimalAdjacent (text : String) (s e : Nat) : Bool :=
  specBeforeAdjacent text.toList s || specAfterAdjacent text.toList e

/-- Outcome of invoking a Python callable: a returned value coerced by
`bool(...)`, a raised `TypeError`, or any other raised exception. -/
inductive PyCallResult where
  | ok (b : Bool)
  | typeError
  | exc
deriving DecidableEq

/-- A resolved validator callable. Its outcome may depend on the four
canonical argument values `(value, text, country, rules)` and on how many
leading arguments the call actually passes (Python arity errors are
`typeError` outcomes). -/
def ValidatorFn : Type :=
  String → String → String → List (String × String) → Nat → PyCallResult

/-- `ValidationRules.always_true`: a four-parameter static method returning
`True`; calling it with fewer than four positional arguments is a Python
arity `TypeError`. -/
def ValidationRules.always_true : ValidatorFn :=
  fun _ _ _ _ n => if n == 4 then .ok true else .typeError

/-- The import/introspection environment behind `ValidationProvider`:
`importObject` models `_import_object` (`none` models the resolution
raising, which the outer handler of `validate` turns into `False`);
`resolveInCountry` models `_resolve_in_country`, whose internal failures
are already swallowed and reported as `None`. -/
structure ValidationEnv where
  importObject : String → Option ValidatorFn
  resolveInCountry : String → String → Option ValidatorFn

/-- `_call_flex` inside `ValidationProvider.validate`: call with
`(value, text, country, rules)`, retrying on `TypeError` with
`(value, text, country)`, then `(value, text)`, then `(value)`. A
non-`TypeError` exception, or a `TypeError` from the final single-argument
call, escapes `_call_flex` (and is then caught by `validate`'s outer
handler). -/
def call_flex (f : ValidatorFn) (value text country : String)
    (rules : List (String × String)) : PyCallResult :=
  match f value text country rules 4 with
  | .ok b => .ok b
  | .exc => .exc
  | .typeError =>
    match f value text country rules 3 with
    | .ok b => .ok b
    | .exc => .exc
    | .typeError =>
      match f value text country rules 2 with
      | .ok b => .ok b
      | .exc => .exc
      | .typeError => f value text country rules 1

/-- `ValidationProvider.validate`: dotted-path names are imported and
called; otherwise the country analyzer module is searched; otherwise the
builtin `ValidationRules` class is consulted — it defines only
`always_true`, and `getattr(ValidationRules, fn, always_true)` falls back
to `always_true` for every other (non-inherited) name. Any exception
escaping resolution or invocation is caught and becomes `False`. -/
def ValidationProvider.validate (env : ValidationEnv) (fn value text country : String)
    (rules : List (String × String)) : Bool :=
  if fn.toList.contains '.' then
    match env.importObject fn with
    | none => false
    | some f =>
      match call_flex f value text country rules with
      | .ok b => b
      | _ => false
  else
    match env.resolveInCountry country fn with
    | some f =>
      match call_flex f value text country rules with
      | .ok b => b
      | _ => false
    | none =>
      match call_flex ValidationRules.always_true value text country rules with
      | .ok b => b
      | _ => false

/-- Spec-side description of the resolution order of
`ValidationProvider.validate`: dotted path, else country module, else the
builtin fallback (which always resolves); `none` exactly when a
dotted import fails. -/
def resolvesTo (env : ValidationEnv) (fn country : String) : Option ValidatorFn :=
  if fn.toList.contains '.' then
    env.importObject fn
  else
    match env.resolveInCountry country fn with
    | some f => some f
    | none => some ValidationRules.always_true

/-- Spec-side description of the retry chain: the four calls of the
argument-shedding sequence, in order. -/
def flexCalls (f : ValidatorFn) (value text country : String)
    (rules : List (String × String)) : List PyCallResult :=
  [f value text country rules 4, f value text country rules 3,
   f value text country rules 2, f value text country rules 1]

/-- Presidio `RecognizerResult` as consumed by `EntityClassifier`:
entity type, half-open span, confidence score. The Python attribute `end`
is a Lean keyword and is called `stop` here. -/
structure RecognizerResult where
  entity_type : String
  start : Nat
  stop : Nat
  score : ℚ
deriving DecidableEq

/-- `EntityClassifier.entities_overlap`, with the source's precedence kept
as written: `not (entity1.end <= entity2.start or (entity2.end <=
entity1.start and entity1.entity_type != entity2.entity_type))`. -/
def EntityClassifier.entities_overlap (entity1 entity2 : RecognizerResult) : Bool :=
  !(decide (entity1.stop ≤ entity2.start)
    || (decide (entity2.stop ≤ entity1.start)
        && !(entity1.entity_type == entity2.entity_type)))

/-- Two half-open ranges intersect (the spec's overlap notion). -/
def spansIntersect (a b : RecognizerResult) : Bool :=
  decide (max a.start b.start < min a.stop b.stop)

/-- Stable insertion (after existing elements with key not exceeding the
new element's key) used to model Python's stable `sorted(..., key=...)`. -/
def pyInsertByKey (key : α → Nat) (e : α) : List α → List α
  | [] => [e]
  | x :: xs => if key x ≤ key e then x :: pyInsertByKey key e xs else e :: x :: xs

/-- Python `sorted(l, key=...)`: stable sort, modelled as stable insertion
sort (extensionally equal to any stable sort with the same key). -/
def pySortedByKey (key : α → Nat) (l : List α) : List α :=
  l.foldl (fun acc e => pyInsertByKey key e acc) []

/-- One anonymizer output item (`anonymized_text.items`): entity type and
the replacement's span in the redacted text. -/
structure AnonEntry where
  entity_type : String
  start : Nat
  stop : Nat
deriving DecidableEq

/-- One entry of `EntityClassifier._validator_index`. -/
structure VInfo where
  country : String
  fn : String
  rules : List (String × String)

/-- The per-instance state and external collaborators of a constructed
`EntityClassifier`: the YAML-derived indices built in `custom_analyze`
(`_group_conf`, `_display_name`, `_validator_index`), the external
libraries, the validation environment, the Presidio analyzer engine
(`self.analyzer.analyze`, a parameter producing the detection candidates),
the anonymizer engine, and the arbitration call.

`judge` models `judge_results` (Modelled from the spec:
`classifier/entity_classifier/utils/judge_entity.py` is not under `src`;
per the spec each overlap group is submitted with the source text to an
external arbitration call and the verdicts are merged back into the
accepted set, so it is kept as an opaque parameter from overlap groups to
accepted results). `anonymizer` models the Presidio `AnonymizerEngine`
(external collaborator). -/
structure ClassifierEnv where
  groupConf : String → Option (ℚ × String)
  displayName : String → Option String
  validatorIndex : String → Option VInfo
  ext : ExtLibs
  venv : ValidationEnv
  detector : String → List RecognizerResult
  judge : String → List (List RecognizerResult) → List RecognizerResult
  anonymizer : List RecognizerResult → String → List AnonEntry × String

/-- The per-candidate acceptance test of `EntityClassifier.analyze_response`
(the body of the loop up to the grouping logic): decimal-adjacency filter,
known group, truthy score meeting the minimum confidence, generic
validation, and the YAML validator when one is indexed (an empty function
name is falsy in Python and skips the YAML validator). -/
def acceptCandidate (cfg : ClassifierEnv) (input_text : String)
    (entity : RecognizerResult) : Bool :=
  if is_not_part_of_decimal entity.entity_type input_text entity.start entity.stop then
    let mc := (cfg.groupConf entity.entity_type).getD (0, "unknown")
    if mc.2 == "unknown" then false
    else
      let value := pySlice input_text entity.start entity.stop
      let yaml_valid :=
        match cfg.validatorIndex entity.entity_type with
        | some vinfo =>
          if vinfo.fn == "" then true
          else ValidationProvider.validate cfg.venv vinfo.fn value input_text
            vinfo.country vinfo.rules
        | none => true
      !(entity.score == 0) && decide (mc.1 ≤ entity.score)
        && validate_extracted_data cfg.ext entity.entity_type value input_text
        && yaml_valid
  else false

/-- The grouping state of `analyze_response`: accepted non-overlapping
results, completed overlap groups, and the running `current_overlap_group`
(stored in reverse: the head is the most recently appended member,
`current_overlap_group[-1]`). -/
structure PartState where
  nonOverlapping : List RecognizerResult
  overlapping : List (List RecognizerResult)
  current : List RecognizerResult
deriving DecidableEq

/-- The empty grouping state. -/
def initPartState : PartState := ⟨[], [], []⟩

/-- The `else` branch of the grouping logic: flush the current group
(size > 1 becomes an overlap group, size 1 is accepted outright) and start
a new group containing only the incoming candidate. -/
def flushAndStart (st : PartState) (entity : RecognizerResult) : PartState :=
  if 1 < st.current.length then
    ⟨st.nonOverlapping, st.overlapping ++ [st.current.reverse], [entity]⟩
  else if st.current.length == 1 then
    ⟨st.nonOverlapping ++ st.current, st.overlapping, [entity]⟩
  else
    ⟨st.nonOverlapping, st.overlapping, [entity]⟩

/-- One step of the grouping logic of `analyze_response` for an accepted
candidate: if the current group is non-empty and its last member overlaps
the candidate (per `entities_overlap`), a same-type candidate goes
straight to the non-overlapping output and a different-type candidate is
appended to the group; otherwise the group is flushed and restarted. -/
def partStep (st : PartState) (entity : RecognizerResult) : PartState :=
  match st.current with
  | last_entity :: _ =>
    if EntityClassifier.entities_overlap last_entity entity then
      if last_entity.entity_type == entity.entity_type then
        { st with nonOverlapping := st.nonOverlapping ++ [entity] }
      else
        { st with current := entity :: st.current }
    else
      flushAndStart st entity
  | [] => flushAndStart st entity

/-- The trailing flush after the loop of `analyze_response`. -/
def finalFlush (st : PartState) : List RecognizerResult × List (List RecognizerResult) :=
  if 1 < st.current.length then
    (st.nonOverlapping, st.overlapping ++ [st.current.reverse])
  else if st.current.length == 1 then
    (st.nonOverlapping ++ st.current, st.overlapping)
  else
    (st.nonOverlapping, st.overlapping)

/-- The conflict-resolution partition of `analyze_response`, applied to the
(already filtered and start-sorted) accepted candidate stream. -/
def conflictPartition (l : List RecognizerResult) :
    List RecognizerResult × List (List RecognizerResult) :=
  finalFlush (l.foldl partStep initPartState)

/-- `EntityClassifier.analyze_response`: detect, sort by start offset,
filter-and-group in one pass, arbitrate the overlap groups, merge, and
deduplicate (`list(set(...))`; Python's set ordering is unspecified, the
result is modelled up to the membership-preserving `eraseDups`). -/
def EntityClassifier.analyze_response (cfg : ClassifierEnv) (input_text : String) :
    List RecognizerResult :=
  let analyzer_results := cfg.detector input_text
  let sorted_analyzer_results := pySortedByKey (fun r => r.start) analyzer_results
  let st := sorted_analyzer_results.foldl
    (fun st entity => if acceptCandidate cfg input_text entity then partStep st entity else st)
    initPartState
  let res := finalFlush st
  let overlapping_results_new := cfg.judge input_text res.2
  (res.1 ++ overlapping_results_new).eraseDups

/-- Spec-side grouping step (from the spec's words): identical walk, but
the overlap test is exactly "the two ranges intersect". -/
def specPartStep (st : PartState) (entity : RecognizerResult) : PartState :=
  match st.current with
  | last_entity :: _ =>
    if spansIntersect last_entity entity then
      if last_entity.entity_type == entity.entity_type then
        { st with nonOverlapping := st.nonOverlapping ++ [entity] }
      else
        { st with current := entity :: st.current }
    else
      flushAndStart st entity
  | [] => flushAndStart st entity

/-- Spec-side conflict-resolution partition: the walk described by the
spec over the accepted, start-sorted stream, with range intersection as
the overlap test. -/
def specConflictPartition (l : List RecognizerResult) :
    List RecognizerResult × List (List RecognizerResult) :=
  finalFlush (l.foldl specPartStep initPartState)

/-- How an accepted result reached the final result set: pushed by the
same-type fast path, flushed as a size-1 group, or returned by
arbitration of an overlap group. -/
inductive AcceptTag where
  | fastPath
  | singleFlush
  | arbitrated
deriving DecidableEq

/-- Grouping state instrumented with acceptance tags. -/
structure TPartState where
  nonOverlapping : List (RecognizerResult × AcceptTag)
  overlapping : List (List RecognizerResult)
  current : List RecognizerResult
deriving DecidableEq

/-- Tagged version of `flushAndStart`. -/
def flushAndStartT (st : TPartState) (entity : RecognizerResult) : TPartState :=
  if 1 < st.current.length then
    ⟨st.nonOverlapping, st.overlapping ++ [st.current.reverse], [entity]⟩
  else if st.current.length == 1 then
    ⟨st.nonOverlapping ++ st.current.map (fun r => (r, AcceptTag.singleFlush)),
      st.overlapping, [entity]⟩
  else
    ⟨st.nonOverlapping, st.overlapping, [entity]⟩

/-- Tagged version of `partStep`. -/
def partStepT (st : TPartState) (entity : RecognizerResult) : TPartState :=
  match st.current with
  | last_entity :: _ =>
    if EntityClassifier.entities_overlap last_entity entity then
      if last_entity.entity_type == entity.entity_type then
        { st with nonOverlapping := st.nonOverlapping ++ [(entity, AcceptTag.fastPath)] }
      else
        { st with current := entity :: st.current }
    else
      flushAndStartT st entity
  | [] => flushAndStartT st entity

/-- Tagged version of `finalFlush`. -/
def finalFlushT (st : TPartState) :
    List (RecognizerResult × AcceptTag) × List (List RecognizerResult) :=
  if 1 < st.current.length then
    (st.nonOverlapping, st.overlapping ++ [st.current.reverse])
  else if st.current.length == 1 then
    (st.nonOverlapping ++ st.current.map (fun r => (r, AcceptTag.singleFlush)), st.overlapping)
  else
    (st.nonOverlapping, st.overlapping)

/-- `analyze_response` instrumented with acceptance tags (before the final
set-deduplication); erasing the tags recovers the source behavior
(`analyzeTagged_erase`). -/
def analyzeTagged (cfg : ClassifierEnv) (input_text : String) :
    List (RecognizerResult × AcceptTag) :=
  let analyzer_results := cfg.detector input_text
  let sorted_analyzer_results := pySortedByKey (fun r => r.start) analyzer_results
  let st := sorted_analyzer_results.foldl
    (fun st entity => if acceptCandidate cfg input_text entity then partStepT st entity else st)
    (⟨[], [], []⟩ : TPartState)
  let res := finalFlushT st
  res.1 ++ (cfg.judge input_text res.2).map (fun r => (r, AcceptTag.arbitrated))

/-- Forgetting the instrumentation of a tagged state. -/
def eraseT (st : TPartState) : PartState :=
  ⟨st.nonOverlapping.map Prod.fst, st.overlapping, st.current⟩

/-- `EntityClassifier.update_anonymized_location`: the location string is
`start + location_count` and `end + location_count + 6`, and the running
counter grows by the hardcoded 6 (the length of the placeholder growth
assumed per replacement). -/
def EntityClassifier.update_anonymized_location (start stop location_count : Nat) :
    String × Nat :=
  (s!"{start + location_count}_{stop + location_count + 6}", location_count + 6)

/-- One record of `get_analyzed_entities_response`'s output. -/
structure EntityDetail where
  entity_type : String
  location : String
  confidence_score : ℚ
  entity_value : String
  start_index : Nat
  end_index : Nat
deriving DecidableEq

/-- The per-entry loop of `get_analyzed_entities_response`, walking the
sorted analyzed entries with the running index (`enumerate`) and the
cumulative `location_count`. An out-of-range `anonymized_response[index]`
raises `IndexError`, which the per-entry handler catches: the entry is
skipped and `location_count` is unchanged. -/
def gaerLoop (cfg : ClassifierEnv) (input_text : String) (anon : List AnonEntry) :
    Nat → Nat → List RecognizerResult → List EntityDetail
  | _, _, [] => []
  | index, location_count, value :: rest =>
    let location0 := s!"{value.start}_{value.stop}"
    let entity_value := pySlice input_text value.start value.stop
    if anon.isEmpty then
      let mc := (cfg.groupConf value.entity_type).getD (0, "unknown")
      if mc.2 == "unknown" then
        gaerLoop cfg input_text anon (index + 1) location_count rest
      else
        ⟨(cfg.displayName value.entity_type).getD value.entity_type, location0,
          value.score, entity_value, value.start, value.stop⟩ ::
          gaerLoop cfg input_text anon (index + 1) location_count rest
    else
      match anon.get? index with
      | none => gaerLoop cfg input_text anon (index + 1) location_count rest
      | some anonymized_data =>
        let loc_cnt :=
          if anonymized_data.entity_type == value.entity_type then
            EntityClassifier.update_anonymized_location
              anonymized_data.start anonymized_data.stop location_count
          else
            (location0, location_count)
        let mc := (cfg.groupConf value.entity_type).getD (0, "unknown")
        if mc.2 == "unknown" then
          gaerLoop cfg input_text anon (index + 1) loc_cnt.2 rest
        else
          ⟨(cfg.displayName value.entity_type).getD value.entity_type, loc_cnt.1,
            value.score, entity_value, value.start, value.stop⟩ ::
            gaerLoop cfg input_text anon (index + 1) loc_cnt.2 rest

/-- `EntityClassifier.get_analyzed_entities_response`: sort the analyzed
and (when present — an empty list is falsy) anonymized entries by start,
then walk them in lockstep emitting one detail record per entry with a
known group, adjusting locations by the running `location_count` when the
aligned anonymized entry's type matches. -/
def EntityClassifier.get_analyzed_entities_response (cfg : ClassifierEnv)
    (data : List RecognizerResult) (anonymized_response : List AnonEntry)
    (input_text : String) : List EntityDetail :=
  let analyzed_data := pySortedByKey (fun r => r.start) data
  let anon :=
    if anonymized_response.isEmpty then []
    else pySortedByKey (fun a => a.start) anonymized_response
  gaerLoop cfg input_text anon 0 0 analyzed_data

/-- `dict.setdefault(key, []).append(detail)` over an insertion-ordered
association list. -/
def aggAdd (acc : List (String × List EntityDetail)) (key : String)
    (detail : EntityDetail) : List (String × List EntityDetail) :=
  if acc.any (fun p => p.1 == key) then
    acc.map (fun p => if p.1 == key then (p.1, p.2 ++ [detail]) else p)
  else
    acc ++ [(key, [detail])]

/-- `EntityClassifier._aggregate_entities_yaml`: group the detail records
by displayed entity type. -/
def EntityClassifier.aggregate_entities_yaml (entities_response : List EntityDetail) :
    List (String × List EntityDetail) :=
  entities_response.foldl (fun acc entry => aggAdd acc entry.entity_type entry) []

/-- Number of parameters `anonymize_response` requires after `self`
(`analyzer_results` and `input_text`). -/
def anonymize_response_paramCount : Nat := 2

/-- Number of positional arguments the call inside
`entity_classifier_and_anonymizer` actually passes (`analyzer_results`
only; `input_text` is omitted). -/
def anonymize_response_callArgCount : Nat := 1

/-- The call `self.anonymize_response(analyzer_results)` raises a Python
`TypeError` (missing required positional argument) exactly when it passes
fewer arguments than the signature requires. -/
def anonymizeCallRaises : Bool :=
  anonymize_response_callArgCount < anonymize_response_paramCount

/-- Python `text.replace("<", "&lt;").replace(">", "&gt;")`. -/
def escapeAngles (s : String) : String :=
  (s.replace "<" "&lt;").replace ">" "&gt;"

/-- `EntityClassifier.entity_classifier_and_anonymizer`: run
`analyze_response`; when anonymization is requested, call
`anonymize_response` — the call omits `input_text`, so it raises
`TypeError` and the surrounding handler returns the (still empty)
`entity_details` together with the unmodified `input_text`. The branch
that would run if the call did not raise is written out after the raise
check, mirroring the source. -/
def EntityClassifier.entity_classifier_and_anonymizer (cfg : ClassifierEnv)
    (input_text : String) (anonymize_snippets : Bool) :
    List (String × List EntityDetail) × String :=
  let analyzer_results := EntityClassifier.analyze_response cfg input_text
  if anonymize_snippets then
    if anonymizeCallRaises then
      ([], input_text)
    else
      let ar := cfg.anonymizer analyzer_results input_text
      let input_text2 := escapeAngles ar.2
      let entities_response :=
        EntityClassifier.get_analyzed_entities_response cfg analyzer_results ar.1 input_text2
      (EntityClassifier.aggregate_entities_yaml entities_response, input_text2)
  else
    let entities_response :=
      EntityClassifier.get_analyzed_entities_response cfg analyzer_results [] input_text
    (EntityClassifier.aggregate_entities_yaml entities_response, input_text)

/-- The LLM-detection collaborators of `BaseCountryAnalyzer`:
`_enable_llm`, the precomputed `_llm_entity_ids`, the prompt provider, the
text-generation call (returning the parsed JSON mapping of output key to
extracted strings, or `none` for a falsy/non-dict result), and
`map_values_to_spans`. -/
structure LlmEnv where
  enable_llm : Bool
  llm_entity_ids : List String
  get_detection_messages : String → List String → List (String × String)
  generate_entity : List (String × String) → Option (List (String × List String))
  map_values_to_spans : List (String × List String) → String → List (String × Nat × Nat)

/-- The local flag at the top of
`BaseCountryAnalyzer._llm_detect_and_validate` — set to `False`
unconditionally in the source. -/
def use_llm : Bool := false

/-- `BaseCountryAnalyzer._llm_detect_and_validate`: the early return on the
unconditionally false `use_llm` flag, followed by the (consequently dead)
LLM flow: entity-id targeting, prompt, generation, span mapping, and
provisional results at the fixed score 0.8. -/
def BaseCountryAnalyzer.llm_detect_and_validate (env : LlmEnv) (text : String)
    (target_ids : Option (List String)) : List RecognizerResult :=
  if !use_llm then []
  else if !env.enable_llm || env.llm_entity_ids.isEmpty then []
  else
    let ids := match target_ids with
      | none => env.llm_entity_ids
      | some ts => env.llm_entity_ids.filter (fun eid => ts.contains eid)
    if ids.isEmpty then []
    else
      match env.generate_entity (env.get_detection_messages text ids) with
      | none => []
      | some det_raw =>
        (env.map_values_to_spans det_raw text).map
          (fun p => ⟨p.1, p.2.1, p.2.2, (8 : ℚ) / 10⟩)

/-- The fields of a YAML entity consulted by
`BaseCountryAnalyzer.post_filter`. -/
structure AnalyzerEntity where
  enabled : Bool
  min_confidence : Option ℚ
  fn : Option String

/-- The configuration and introspection state of a `BaseCountryAnalyzer`:
the entity map and country of its `CountryConfig`, the bound-method lookup
`getattr(self, fn, None)`, and the validation provider environment. -/
structure BaseAnalyzerEnv where
  llm : LlmEnv
  entities : String → Option AnalyzerEntity
  country : String
  instMethods : String → Option ValidatorFn
  venv : ValidationEnv

/-- The bound-method call chain of `post_filter`: `(value, text, country,
{})`, retried on `TypeError` with `(value, text)`, then `(value)`; the
final call and any non-`TypeError` exception escape `post_filter`
(modelled as `Except.error`). -/
def instCallFlex (f : ValidatorFn) (value text country : String) : Except Unit Bool :=
  match f value text country [] 4 with
  | .ok b => .ok b
  | .exc => .error ()
  | .typeError =>
    match f value text country [] 2 with
    | .ok b => .ok b
    | .exc => .error ()
    | .typeError =>
      match f value text country [] 1 with
      | .ok b => .ok b
      | _ => .error ()

/-- `BaseCountryAnalyzer.post_filter`: drop results for unknown or disabled
entities, results under the configured minimum confidence, and results
rejected by the configured validator (bound method preferred, else the
validation provider). -/
def BaseCountryAnalyzer.post_filter (env : BaseAnalyzerEnv) (text : String) :
    List RecognizerResult → Except Unit (List RecognizerResult)
  | [] => .ok []
  | r :: rs =>
    match env.entities r.entity_type with
    | none => BaseCountryAnalyzer.post_filter env text rs
    | some ent =>
      if !ent.enabled then BaseCountryAnalyzer.post_filter env text rs
      else
        let min_conf := ent.min_confidence.getD 0
        if r.score < min_conf then BaseCountryAnalyzer.post_filter env text rs
        else
          match ent.fn with
          | none => do
            let rest ← BaseCountryAnalyzer.post_filter env text rs
            pure (r :: rest)
          | some fn =>
            let value := pySlice text r.start r.stop
            let okE : Except Unit Bool :=
              match env.instMethods fn with
              | some m => instCallFlex m value text env.country
              | none =>
                .ok (ValidationProvider.validate env.venv fn value text env.country [])
            do
              let ok ← okE
              if ok then
                let rest ← BaseCountryAnalyzer.post_filter env text rs
                pure (r :: rest)
              else
                BaseCountryAnalyzer.post_filter env text rs

/-- `BaseCountryAnalyzer.analyze`: restrict the LLM targets to the
requested entities (when any were requested), run the LLM flow when
enabled, and post-filter. -/
def BaseCountryAnalyzer.analyze (env : BaseAnalyzerEnv) (text : String)
    (entities : List String) : Except Unit (List RecognizerResult) :=
  let requested : Option (List String) := if entities.isEmpty then none else some entities
  let llm_targets : Option (List String) :=
    match requested with
    | none => none
    | some req => some (req.filter (fun e => env.llm.llm_entity_ids.contains e))
  let llm_results :=
    if env.llm.enable_llm then
      BaseCountryAnalyzer.llm_detect_and_validate env.llm text llm_targets
    else []
  BaseCountryAnalyzer.post_filter env text llm_results

/-- A Python `datetime.date`. -/
structure PyDate where
  year : Nat
  month : Nat
  day : Nat
deriving DecidableEq

/-- Strict date order (`dob.date() > datetime.today().date()` etc.). -/
def dateLt (a b : PyDate) : Bool :=
  decide (a.year < b.year)
  || (a.year == b.year && decide (a.month < b.month))
  || (a.year == b.year && a.month == b.month && decide (a.day < b.day))

/-- Gregorian leap year. -/
def isLeap (y : Nat) : Bool :=
  (y % 4 == 0 && !(y % 100 == 0)) || y % 400 == 0

/-- Days in a month of the proleptic Gregorian calendar (0 for an invalid
month number). -/
def daysInMonth (y m : Nat) : Nat :=
  if m == 1 || m == 3 || m == 5 || m == 7 || m == 8 || m == 10 || m == 12 then 31
  else if m == 4 || m == 6 || m == 9 || m == 11 then 30
  else if m == 2 then (if isLeap y then 29 else 28)
  else 0

/-- A valid calendar date. -/
def validYMD (y m d : Nat) : Bool :=
  decide (1 ≤ m) && decide (m ≤ 12) && decide (1 ≤ d) && decide (d ≤ daysInMonth y m)

/-- The numeric value of an all-digit character list (`none` otherwise). -/
def parseNatDigits (l : List Char) : Option Nat :=
  if !l.isEmpty && l.all Char.isDigit then
    some (l.foldl (fun a c => a * 10 + (c.toNat - 48)) 0)
  else
    none

/-- Modelled from the spec: Python `datetime.strptime(s, "%d-%m-%Y")`
(standard library, not in `src`): a day field of 1-2 digits, a month field
of 1-2 digits and a year field of 1-4 digits separated by dashes, forming
a valid calendar date. -/
def strptime_dmY (s : List Char) : Option PyDate :=
  match splitOnChar '-' s with
  | [ds, ms, ys] =>
    match parseNatDigits ds, parseNatDigits ms, parseNatDigits ys with
    | some d, some m, some y =>
      if ds.length ≤ 2 && ms.length ≤ 2 && ys.length ≤ 4 && validYMD y m d then
        some ⟨y, m, d⟩
      else none
    | _, _, _ => none
  | _ => none

/-- Modelled from the spec: Python `datetime.strptime(s, "%Y-%m-%d")`. -/
def strptime_Ymd (s : List Char) : Option PyDate :=
  match splitOnChar '-' s with
  | [ys, ms, ds] =>
    match parseNatDigits ys, parseNatDigits ms, parseNatDigits ds with
    | some y, some m, some d =>
      if ys.length ≤ 4 && ms.length ≤ 2 && ds.length ≤ 2 && validYMD y m d then
        some ⟨y, m, d⟩
      else none
    | _, _, _ => none
  | _ => none

/-- `DobRecognizer.invalidate_result` (`dob_analyzer.py`): normalize
delimiters to dashes, try `%d-%m-%Y` then `%Y-%m-%d`, and invalidate
(return `True`) when no format parses, when the date lies in the future,
or when `today.year - dob.year > 120`. `today` is a parameter (real
time). This recognizer is defined in the repository but never registered
with any engine. -/
def DobRecognizer.invalidate_result (today : PyDate) (pattern_text : String) : Bool :=
  let normalized := pattern_text.toList.map
    (fun c => if c == '.' || c == '/' then '-' else c)
  let dob :=
    match strptime_dmY normalized with
    | some d => some d
    | none => strptime_Ymd normalized
  match dob with
  | none => true
  | some dob =>
    if dateLt today dob then true
    else if 120 < today.year - dob.year then true
    else false

/-- Modelled from the spec: the external `dateutil.parser.parse` success
predicate, restricted to slash-separated dates, which dateutil reads as
month/day/year: such a value parses exactly when it denotes a valid
calendar date. Used to instantiate the date-parse oracle in concrete
statements. -/
def dateutilSlashParseOk (s : String) : Bool :=
  match splitOnChar '/' s.toList with
  | [ms, ds, ys] =>
    match parseNatDigits ms, parseNatDigits ds, parseNatDigits ys with
    | some m, some d, some y =>
      ms.length ≤ 2 && ds.length ≤ 2 && ys.length == 4 && validYMD y m d
    | _, _, _ => false
  | _ => false

/-- Spec-side reported location (from the claim's words) for an accepted
candidate with no prior replacements: its span in the redacted text,
shifted by a cumulative length delta of zero. -/
def specAnonLocationNoPrior (a : AnonEntry) : String :=
  s!"{a.start}_{a.stop}"

/-- A validation environment in which no dotted import and no
country-module lookup succeeds. -/
def trivialVEnv : ValidationEnv :=
  ⟨fun _ => none, fun _ _ => none⟩

/-- A classifier environment whose YAML indices accept everything: every
entity id is mapped to group "g" with minimum confidence 0, no display
names, no YAML validators, inert external libraries, a given detector, an
arbitration call returning no results, and an anonymizer returning no
items. -/
def plainEnv (detector : String → List RecognizerResult) : ClassifierEnv :=
  { groupConf := fun _ => some (0, "g")
    displayName := fun _ => none
    validatorIndex := fun _ => none
    ext := extNone
    venv := trivialVEnv
    detector := detector
    judge := fun _ _ => []
    anonymizer := fun _ t => ([], t) }

/-- The candidate stream of the C1 counterexample. -/
def c1cands : List RecognizerResult :=
  [⟨"alpha", 0, 10, 1⟩, ⟨"beta", 2, 12, 1⟩, ⟨"beta", 3, 13, 1⟩,
   ⟨"alpha", 4, 14, 1⟩, ⟨"alpha", 5, 15, 1⟩]

/-- Classifier environment of the C1 counterexample. -/
def c1env : ClassifierEnv := plainEnv (fun _ => c1cands)

/-- Classifier environment of the C1 witness. -/
def c1wenv : ClassifierEnv :=
  plainEnv (fun _ => [⟨"X", 0, 5, 1⟩, ⟨"Y", 6, 9, 1⟩])

/-- The start-sorted accepted stream of the C2 counterexample: a candidate
with an empty span (`[7,7)`) between two overlapping neighbours. -/
def c2cands : List RecognizerResult :=
  [⟨"X", 5, 10, 1⟩, ⟨"X", 7, 7, 1⟩, ⟨"Y", 8, 20, 1⟩]

/-- Classifier environment of the C10 counterexample. -/
def c10env : ClassifierEnv := plainEnv (fun _ => [])

/-- The reported locations the `get_analyzed_entities_response` loop
produces for a run of aligned, type-matching anonymized entries, starting
from counter `c`: each location is the anonymized span shifted by the
counter, with the end additionally shifted by 6, and the counter grows by
the fixed 6 per entry. -/
def expectedLocs (c : Nat) : List AnonEntry → List String
  | [] => []
  | a :: r => s!"{a.start + c}_{a.stop + c + 6}" :: expectedLocs (c + 6) r

/-- Ordered compatibility of tagged accepted results: whenever both were
accepted as singleton-group flushes, the earlier one ends no later than
the later one starts, and both spans are non-empty. -/
def RelT (p q : RecognizerResult × AcceptTag) : Prop :=
  p.2 = AcceptTag.singleFlush → q.2 = AcceptTag.singleFlush →
    (p.1.stop ≤ q.1.start ∧ p.1.start < p.1.stop ∧ q.1.start < q.1.stop)

/-- Invariant of the instrumented grouping state: the accepted results are
pairwise `RelT`-compatible; every singleton-flushed result has a non-empty
span ending no later than every current-group member starts; current-group
members have non-empty spans; and an empty current group only occurs in
the initial state, where nothing has been accepted yet. -/
def TInv (st : TPartState) : Prop :=
  List.Pairwise RelT st.nonOverlapping
  ∧ (∀ p ∈ st.nonOverlapping, p.2 = AcceptTag.singleFlush →
      p.1.start < p.1.stop ∧ ∀ c ∈ st.current, p.1.stop ≤ c.start)
  ∧ (∀ c ∈ st.current, c.start < c.stop)
  ∧ (st.current = [] → st.nonOverlapping = [])

/-- `validate_bank_account_number` from
`entity_classifier_2/analyzers/us_analyzer.py`: digit count between 6 and
17, no letters, no 5-digit synthetic sequences, and a raw length of at
most 15. -/
def validate_bank_account_number (value text : String) : Bool :=
  let digit_value := digitChars value
  let a1 := decide (6 ≤ digit_value.length) && decide (digit_value.length ≤ 17)
  let a2 := !is_valid_numeric_field value
  let a3 := !has_consecutive_increasing_numbers value
  let a4 := !has_consecutive_decreasing_numbers value
  let a5 := !has_consecutive_repetitive_numbers value
  decide (value.length ≤ 15) && a2 && a3 && a4 && a5 && a1

/-- C3: for every input text (and every classifier state), calling
`entity_classifier_and_anonymizer` with `anonymize_snippets=True` returns
the empty entity-details mapping together with the original, unredacted
input text: the internal `anonymize_response` call omits the required
`input_text` argument, always raises, and is swallowed by the surrounding
handler. -/
theorem C3_anonymize_branch_always_empty :
    ∀ (cfg : ClassifierEnv) (input_text : String),
      EntityClassifier.entity_classifier_and_anonymizer cfg input_text true
        = ([], input_text) := by
  intro cfg input_text
  simp [EntityClassifier.entity_classifier_and_anonymizer, anonymizeCallRaises,
    anonymize_response_callArgCount, anonymize_response_paramCount]

/-- C4: for every text, configuration and requested entity subset, the
LLM-assisted pass emits zero candidates (`_llm_detect_and_validate`
returns `[]` because of the unconditionally false `use_llm` flag), and
`BaseCountryAnalyzer.analyze` returns the empty list (without raising). -/
theorem C4_llm_detection_always_empty :
    ∀ (env : BaseAnalyzerEnv) (text : String) (entities : List String)
      (target_ids : Option (List String)),
      BaseCountryAnalyzer.llm_detect_and_validate env.llm text target_ids = []
      ∧ BaseCountryAnalyzer.analyze env text entities = .ok [] := by
  intro env text entities target_ids
  refine ⟨rfl, ?_⟩
  unfold BaseCountryAnalyzer.analyze
  cases h : env.llm.enable_llm <;>
    simp [h, BaseCountryAnalyzer.llm_detect_and_validate, use_llm,
      BaseCountryAnalyzer.post_filter]

/-- The nested retry chain of `_call_flex`, read back as: the first of the
four progressively-smaller calls that is not a `TypeError` decides the
outcome (a returned boolean is the verdict, any other exception becomes
`False` through the outer handler). -/
theorem callFlex_characterization (f : ValidatorFn) (value text country : String)
    (rules : List (String × String)) :
    (match call_flex f value text country rules with
     | .ok b => b
     | _ => false)
    = (match (flexCalls f value text country rules).find?
          (fun c => !(c == PyCallResult.typeError)) with
       | some (.ok b) => b
       | _ => false) := by
  unfold call_flex flexCalls
  cases h4 : f value text country rules 4 <;>
  cases h3 : f value text country rules 3 <;>
  cases h2 : f value text country rules 2 <;>
  cases h1 : f value text country rules 1 <;>
  rfl

/-- C5: `ValidationProvider.validate` resolves the validator (dotted path,
else country module, else builtin fallback), then calls it with
`(value, text, country, rules)`, retrying on arity `TypeError` with
`(value, text, country)`, `(value, text)`, `(value)`; the first call that
is not a `TypeError` decides the verdict, and any other exception during
resolution or invocation yields `False` and is never propagated (the
function is total and Boolean-valued). -/
theorem C5_validate_retry_chain :
    ∀ (env : ValidationEnv) (fn value text country : String)
      (rules : List (String × String)),
      ValidationProvider.validate env fn value text country rules
        = (match resolvesTo env fn country with
           | none => false
           | some f =>
             match (flexCalls f value text country rules).find?
                 (fun c => !(c == PyCallResult.typeError)) with
             | some (.ok b) => b
             | _ => false) := by
  intro env fn value text country rules
  unfold ValidationProvider.validate resolvesTo
  by_cases hdot : fn.toList.contains '.' = true
  · rw [if_pos hdot, if_pos hdot]
    cases h : env.importObject fn with
    | none => rfl
    | some f => simpa using callFlex_characterization f value text country rules
  · rw [if_neg hdot, if_neg hdot]
    cases h : env.resolveInCountry country fn with
    | none =>
      simpa using callFlex_characterization ValidationRules.always_true value text country rules
    | some f => simpa using callFlex_characterization f value text country rules

/-- C9 counterexample: a bank-account-like value with 16 digits — within
the claimed 6–17 inclusive bound — is rejected by the per-type length
check, whose upper bound for `bank_account_number` is 15. -/
theorem C9_counterexample :
    is_valid_length_for_entity extNone "bank_account_number" "9081726354453627" = false
    ∧ (digitChars "9081726354453627").length = 16
    ∧ 6 ≤ 16 ∧ 16 ≤ 17
    ∧ validate_bank_account_number "9081726354453627" "" = false := by decide

/-- C9 (amended): the per-type length check accepts a bank-account-like
value exactly when its digit count is between 6 and 15 inclusive, other
characters being ignored for the count. (The separate US-analyzer
validator `validate_bank_account_number` uses 6–17 for the digit count
but additionally caps the raw length at 15 and applies the
digit-sequence heuristics.) -/
theorem C9_bank_account_length_bounds :
    ∀ (ext : ExtLibs) (v : String),
      is_valid_length_for_entity ext "bank_account_number" v
        = (decide (6 ≤ (digitChars v).length) && decide ((digitChars v).length ≤ 15)) := by
  intro ext v
  rfl

/-- C7 counterexample: in the text ".123456789" a numeric ("phone_number")
match on the span `[1,10)` is preceded by a decimal point at index 0 that
has no other side, so by the claimed rule it must be kept; the code's
`text[start_index-2]` is the Python negative index `-1`, reads the final
character `9`, and rejects the candidate. -/
theorem C7_counterexample :
    is_not_part_of_decimal "phone_number" ".123456789" 1 10 = false
    ∧ specDecimalAdjacent ".123456789" 1 10 = false := by decide

/-- C6 counterexample: `has_consecutive_increasing_numbers` returns
`False` on "12345a" although the value contains a run of 5 increasing
digits (the heuristics require the whole value to be digits); and the
numeric-type ("phone_number") value "1234567-89", which contains 6
consecutive increasing digits, passes `validate_extracted_data` (the
hyphen disables all three run heuristics), refuting "always fails". -/
theorem C6_counterexample :
    has_consecutive_increasing_numbers "12345a" = false
    ∧ containsStepRun (fun a b => b == a + 1) 5 "12345a" = true
    ∧ validate_extracted_data extNone "phone_number" "1234567-89" "x" = true
    ∧ containsStepRun (fun a b => b == a + 1) 6 "1234567-89" = true := by decide

/-- C8 counterexample: with the (modelled) dateutil parser, the
date-of-birth value "05/12/2990" in the text "DOB: 05/12/2990" is accepted
by the live validation path (`validate_extracted_data` via
`is_valid_date`), although the date lies far in the future — the repo's
own future-date check, `DobRecognizer.invalidate_result` (defined but
never registered), flags it as invalid on 2026-10-12. -/
theorem C8_counterexample :
    validate_extracted_data ⟨fun _ => false, fun _ => false, dateutilSlashParseOk⟩
      "date_of_birth" "05/12/2990" "DOB: 05/12/2990" = true
    ∧ DobRecognizer.invalidate_result ⟨2026, 10, 12⟩ "05/12/2990" = true := by decide

/-- C10 counterexample: for a single accepted candidate (span `[0,4)`)
whose replacement occupies `[0,8)` in the redacted text, no prior
replacement exists, so the claimed location is the unshifted "0_8"; the
code reports "0_14" (the end index is always shifted by a further
hardcoded 6). -/
theorem C10_counterexample :
    (EntityClassifier.get_analyzed_entities_response c10env
        [⟨"t", 0, 4, 1⟩] [⟨"t", 0, 8⟩] "XXXXXXXXXXXX").map (fun d => d.location)
      = ["0_14"]
    ∧ specAnonLocationNoPrior ⟨"t", 0, 8⟩ = "0_8"
    ∧ ¬ ("0_14" = "0_8") := by decide

/-- C2 counterexample: on the start-sorted, filter-accepted stream
`c2cands` (which contains an empty span), the source partition and the
spec-described partition (overlap test = range intersection) disagree:
`entities_overlap` reports an overlap between `[5,10)` and the empty span
`[7,7)` of the same type, so the code pushes the empty-span candidate to
the non-overlapping output and later builds an overlap group, while the
spec walk flushes and accepts all three candidates. -/
theorem C2_counterexample :
    conflictPartition c2cands ≠ specConflictPartition c2cands
    ∧ List.Pairwise (fun a b => a.start ≤ b.start) c2cands := by decide

/-- C1 counterexample: running `analyze_response` on five accepted
candidates (all filters passing, arbitration returning nothing) leaves
both `("beta", [3,13))` — admitted through the same-type fast path — and
`("alpha", [5,15))` in the final result set: two results of different
entity types whose spans overlap. -/
theorem C1_counterexample :
    (⟨"beta", 3, 13, 1⟩ : RecognizerResult)
        ∈ EntityClassifier.analyze_response c1env "aaaaaaaaaaaaaaaaaaaa"
    ∧ (⟨"alpha", 5, 15, 1⟩ : RecognizerResult)
        ∈ EntityClassifier.analyze_response c1env "aaaaaaaaaaaaaaaaaaaa"
    ∧ ¬ ("beta" = "alpha")
    ∧ spansIntersect ⟨"beta", 3, 13, 1⟩ ⟨"alpha", 5, 15, 1⟩ = true := by decide

/-- C8 (amended): the live date-of-birth validation path accepts a value
exactly when the value is at least 8 characters long, the birth-keyword
regex matches somewhere in the surrounding text (not necessarily near the
match), and the external date parse succeeds; `validate_extracted_data`
reduces to exactly this check for the `date_of_birth` label. The
future-date and 120-year checks live only in the never-registered
`DobRecognizer.invalidate_result`. -/
theorem C8_dob_validation_checks :
    (∀ (parseOk : String → Bool) (date text : String),
        is_valid_date parseOk date text
          = (decide (8 ≤ date.length) && dobRegexSearch text && parseOk date))
    ∧ (∀ (ext : ExtLibs) (v t : String),
        validate_extracted_data ext "date_of_birth" v t
          = is_valid_date ext.dateParseOk v t) := by
  constructor
  · intro parseOk date text
    unfold is_valid_date
    by_cases h8 : date.length < 8
    · have hn : ¬ (8 ≤ date.length) := by omega
      simp [if_pos h8, hn]
    · have h8' : 8 ≤ date.length := Nat.le_of_not_lt h8
      simp only [if_neg h8, decide_eq_true h8', Bool.true_and]
      by_cases hs : dobRegexSearch text = true
      · simp [hs]
      · simp [Bool.eq_false_iff.mpr hs]
  · intro ext v t
    cases h : is_valid_date ext.dateParseOk v t <;>
      simp only [validate_extracted_data, h] <;> rfl

/-- Python lookup at a non-negative index is plain bounded lookup. -/
theorem pyCharAt_ofNat (l : List Char) (n : Nat) : pyCharAt l (n : Int) = l.get? n := by
  unfold pyCharAt
  rw [if_pos (by exact_mod_cast Int.natCast_nonneg n)]
  norm_num

/-- The after-check of the decimal filter agrees with the spec-side
adjacency formula on the end side, at every index. -/
theorem decimalAfterCheck_spec (l : List Char) (e : Nat) :
    decimalAfterCheck l e = !specAfterAdjacent l e := by
  unfold decimalAfterCheck specAfterAdjacent
  by_cases he : e < l.length
  · have h2 : pyCharAt l ((e : Int) + 1) = l.get? (e + 1) := by
      have h : ((e : Int) + 1) = ((e + 1 : Nat) : Int) := by push_cast; ring
      rw [h, pyCharAt_ofNat]
    rw [if_pos he, pyCharAt_ofNat, h2]
    cases hg : l.get? e with
    | none =>
      exact absurd (List.get?_eq_none.mp hg) (by omega)
    | some c =>
      cases hd : c.isDigit
      · cases hdot : c == '.'
        · simp [isDigitOpt, isDotOpt, hd, hdot]
        · cases hg2 : l.get? (e + 1) with
          | none => simp [isDigitOpt, isDotOpt, hd, hdot]
          | some c2 =>
            cases hd2 : c2.isDigit <;> simp [isDigitOpt, isDotOpt, hd, hdot, hd2]
      · simp [isDigitOpt, hd]
  · rw [if_neg he]
    have hge : l.get? e = none := List.get?_eq_none.mpr (by omega)
    have hge2 : l.get? (e + 1) = none := List.get?_eq_none.mpr (by omega)
    simp only [List.get?_eq_getElem?] at hge hge2
    simp [isDigitOpt, isDotOpt, hge, hge2]

/-- The before-check of the decimal filter agrees with the negated
spec-side adjacency formula for every well-formed span that does not start
at index 1 right after a leading decimal point. -/
theorem decimalBeforeCheck_spec (l : List Char) (s e : Nat)
    (hse : s ≤ e) (hexc : ¬(s = 1 ∧ l.get? 0 = some '.')) :
    decimalBeforeCheck l s e = !(specBeforeAdjacent l s || specAfterAdjacent l e) := by
  unfold decimalBeforeCheck specBeforeAdjacent
  by_cases hs : 0 < s
  · have h1 : pyCharAt l ((s : Int) - 1) = l.get? (s - 1) := by
      have h : ((s : Int) - 1) = ((s - 1 : Nat) : Int) := by omega
      rw [h, pyCharAt_ofNat]
    rw [if_pos hs, h1]
    cases hg : l.get? (s - 1) with
    | none =>
      have hlen : l.length ≤ s - 1 := List.get?_eq_none.mp hg
      have ha : l.get? e = none := List.get?_eq_none.mpr (by omega)
      have ha2 : l.get? (e + 1) = none := List.get?_eq_none.mpr (by omega)
      simp only [List.get?_eq_getElem?] at ha ha2
      simp [specAfterAdjacent, isDigitOpt, isDotOpt, hs, ha, ha2]
    | some cb =>
      have hlt : s - 1 < l.length := by
        by_contra hc
        rw [List.get?_eq_none.mpr (by omega)] at hg
        exact Option.noConfusion hg
      cases hd : cb.isDigit
      · cases hdot : cb == '.'
        · rw [decimalAfterCheck_spec]
          simp [isDigitOpt, isDotOpt, hs, hd, hdot]
        · have hcb : cb = '.' := by
            have := hdot
            simpa using this
          have hs2 : 2 ≤ s := by
            rcases Nat.lt_or_ge s 2 with h2 | h2
            · have hs1 : s = 1 := by omega
              subst hs1
              exact absurd ⟨rfl, by simpa [hcb] using hg⟩ hexc
            · exact h2
          have h2' : pyCharAt l ((s : Int) - 2) = l.get? (s - 2) := by
            have h : ((s : Int) - 2) = ((s - 2 : Nat) : Int) := by omega
            rw [h, pyCharAt_ofNat]
          rw [h2']
          cases hg2 : l.get? (s - 2) with
          | none =>
            have : l.length ≤ s - 2 := List.get?_eq_none.mp hg2
            omega
          | some c2 =>
            have h1s : 1 < s := by omega
            cases hd2 : c2.isDigit
            · rw [decimalAfterCheck_spec]
              simp [isDigitOpt, isDotOpt, hs, hd, hdot, h1s, hd2]
            · simp [isDigitOpt, isDotOpt, hs, hd, hdot, h1s, hd2]
      · simp [isDigitOpt, hs, hd]
  · have hs0 : s = 0 := by omega
    rw [if_neg hs]
    rw [decimalAfterCheck_spec]
    simp [hs0, isDigitOpt, isDotOpt]

/-- C7 (amended): for every numeric-type candidate span with `start ≤ end`
that does not begin at index 1 immediately after a leading decimal point,
the filter rejects the candidate exactly when the character immediately
preceding its start or immediately following its end is a digit, directly
or separated by a single decimal point whose other side is a digit (when
the span does begin at index 1 after a leading point, the code instead
consults the text's last character through Python negative indexing); in
particular, in "Total: 1234567890.12" the numeric match on "234567890"
strictly inside the literal is rejected. -/
theorem C7_decimal_adjacency_filter :
    (∀ (label text : String) (s e : Nat),
        s ≤ e →
        ¬(s = 1 ∧ text.toList.get? 0 = some '.') →
        is_not_part_of_decimal label text s e
          = !(decimalLabels.contains (pyLower label) && specDecimalAdjacent text s e))
    ∧ is_not_part_of_decimal "us_ssn" "Total: 1234567890.12" 8 17 = false := by
  constructor
  · intro label text s e hse hexc
    unfold is_not_part_of_decimal specDecimalAdjacent
    cases hc : decimalLabels.contains (pyLower label)
    · simp
    · simp only [if_pos rfl, Bool.true_and]
      exact decimalBeforeCheck_spec text.toList s e hse hexc
  · decide

/-- C7 witness: the amended equivalence applied to the concrete numeric
match "234567890" in "Total: 1234567890.12" (preceded by the digit `1`:
rejected on both sides of the equivalence). -/
theorem C7_decimal_adjacency_filter_witness :
    is_not_part_of_decimal "us_ssn" "Total: 1234567890.12" 8 17
      = !(decimalLabels.contains (pyLower "us_ssn")
          && specDecimalAdjacent "Total: 1234567890.12" 8 17) :=
  C7_decimal_adjacency_filter.1 "us_ssn" "Total: 1234567890.12" 8 17
    (by decide) (by decide)

/-- Inserting an element whose key dominates the accumulator appends it. -/
theorem pyInsertByKey_append {α : Type} (key : α → Nat) (e : α) :
    ∀ (acc : List α), (∀ x ∈ acc, key x ≤ key e) →
      pyInsertByKey key e acc = acc ++ [e] := by
  intro acc
  induction acc with
  | nil => intro _; rfl
  | cons x xs ih =>
    intro h
    unfold pyInsertByKey
    rw [if_pos (h x (List.mem_cons_self x xs))]
    rw [ih (fun y hy => h y (List.mem_cons_of_mem x hy))]
    rfl

/-- Folding stable insertion over a list that is already globally sorted
(relative to the accumulator) appends it unchanged. -/
theorem pyFoldInsert_sorted {α : Type} (key : α → Nat) :
    ∀ (l acc : List α),
      List.Pairwise (fun a b => key a ≤ key b) (acc ++ l) →
      l.foldl (fun acc e => pyInsertByKey key e acc) acc = acc ++ l := by
  intro l
  induction l with
  | nil => intro acc _; simp
  | cons e l' ih =>
    intro acc h
    have hcross : ∀ x ∈ acc, key x ≤ key e := by
      intro x hx
      have := (List.pairwise_append.mp h).2.2
      exact this x hx e (List.mem_cons_self e l')
    have hstep : pyInsertByKey key e acc = acc ++ [e] :=
      pyInsertByKey_append key e acc hcross
    have hre : acc ++ e :: l' = (acc ++ [e]) ++ l' := by simp
    calc (e :: l').foldl (fun acc e => pyInsertByKey key e acc) acc
        = l'.foldl (fun acc e => pyInsertByKey key e acc) (pyInsertByKey key e acc) := rfl
      _ = l'.foldl (fun acc e => pyInsertByKey key e acc) (acc ++ [e]) := by rw [hstep]
      _ = (acc ++ [e]) ++ l' := ih (acc ++ [e]) (by rw [← hre]; exact h)
      _ = acc ++ e :: l' := by simp

/-- Python's stable sort leaves an already start-sorted list unchanged. -/
theorem pySortedByKey_eq_self {α : Type} (key : α → Nat) (l : List α)
    (h : List.Pairwise (fun a b => key a ≤ key b) l) :
    pySortedByKey key l = l := by
  have := pyFoldInsert_sorted key l [] (by simpa using h)
  simpa [pySortedByKey] using this

/-- Membership through stable insertion. -/
theorem mem_pyInsertByKey {α : Type} (key : α → Nat) (e a : α) :
    ∀ (l : List α), a ∈ pyInsertByKey key e l ↔ a = e ∨ a ∈ l := by
  intro l
  induction l with
  | nil => simp [pyInsertByKey]
  | cons x xs ih =>
    unfold pyInsertByKey
    by_cases hx : key x ≤ key e
    · rw [if_pos hx]
      simp [ih]
      try tauto
    · rw [if_neg hx]
      simp
      try tauto

/-- Stable insertion preserves sortedness by the key. -/
theorem pyInsertByKey_pairwise {α : Type} (key : α → Nat) (e : α) :
    ∀ (l : List α), List.Pairwise (fun a b => key a ≤ key b) l →
      List.Pairwise (fun a b => key a ≤ key b) (pyInsertByKey key e l) := by
  intro l
  induction l with
  | nil => intro _; simp [pyInsertByKey]
  | cons x xs ih =>
    intro h
    unfold pyInsertByKey
    by_cases hx : key x ≤ key e
    · rw [if_pos hx]
      refine List.Pairwise.cons ?_ (ih h.tail)
      intro y hy
      rcases (mem_pyInsertByKey key e y xs).mp hy with hye | hyx
      · exact hye ▸ hx
      · exact List.rel_of_pairwise_cons h hyx
    · rw [if_neg hx]
      refine List.Pairwise.cons ?_ h
      intro y hy
      rcases List.mem_cons.mp hy with hyx | hyxs
      · exact hyx ▸ Nat.le_of_not_le hx
      · exact Nat.le_trans (Nat.le_of_not_le hx) (List.rel_of_pairwise_cons h hyxs)

/-- The modelled Python sort returns a key-sorted list. -/
theorem pySortedByKey_pairwise {α : Type} (key : α → Nat) (l : List α) :
    List.Pairwise (fun a b => key a ≤ key b) (pySortedByKey key l) := by
  suffices h : ∀ (l acc : List α), List.Pairwise (fun a b => key a ≤ key b) acc →
      List.Pairwise (fun a b => key a ≤ key b)
        (l.foldl (fun acc e => pyInsertByKey key e acc) acc) by
    exact h l [] (by simp)
  intro l
  induction l with
  | nil => intro acc h; simpa using h
  | cons e l' ih =>
    intro acc h
    exact ih (pyInsertByKey key e acc) (pyInsertByKey_pairwise key e acc h)

/-- The modelled Python sort preserves membership. -/
theorem mem_pySortedByKey {α : Type} (key : α → Nat) (a : α) (l : List α) :
    a ∈ pySortedByKey key l ↔ a ∈ l := by
  suffices h : ∀ (l acc : List α),
      (a ∈ l.foldl (fun acc e => pyInsertByKey key e acc) acc ↔ a ∈ acc ∨ a ∈ l) by
    have := h l []
    simpa [pySortedByKey] using this
  intro l
  induction l with
  | nil => intro acc; simp
  | cons e l' ih =>
    intro acc
    calc a ∈ (e :: l').foldl (fun acc e => pyInsertByKey key e acc) acc
        ↔ a ∈ l'.foldl (fun acc e => pyInsertByKey key e acc) (pyInsertByKey key e acc) :=
          Iff.rfl
      _ ↔ a ∈ pyInsertByKey key e acc ∨ a ∈ l' := ih (pyInsertByKey key e acc)
      _ ↔ (a = e ∨ a ∈ acc) ∨ a ∈ l' := by rw [mem_pyInsertByKey]
      _ ↔ a ∈ acc ∨ a ∈ e :: l' := by simp; try tauto

/-- The response loop, on aligned type-matching entries with known groups,
reports exactly the fixed-shift locations of `expectedLocs`. -/
theorem gaerLoop_locations (cfg : ClassifierEnv) (text : String) :
    ∀ (pairs : List (RecognizerResult × AnonEntry)) (al : List AnonEntry) (k c : Nat),
      (∀ j, al.get? (k + j) = (pairs.map Prod.snd).get? j) →
      (∀ p ∈ pairs, p.2.entity_type = p.1.entity_type) →
      (∀ p ∈ pairs, ((cfg.groupConf p.1.entity_type).getD (0, "unknown")).2 ≠ "unknown") →
      al.isEmpty = false →
      (gaerLoop cfg text al k c (pairs.map Prod.fst)).map (fun d => d.location)
        = expectedLocs c (pairs.map Prod.snd) := by
  intro pairs
  induction pairs with
  | nil =>
    intro al k c _ _ _ _
    rfl
  | cons p ps ih =>
    intro al k c hal htype hgrp hne
    obtain ⟨r, a⟩ := p
    have hk : al.get? k = some a := by
      have := hal 0
      simpa using this
    have htypeEq : (a.entity_type == r.entity_type) = true := by
      have := htype (r, a) (List.mem_cons_self _ _)
      exact beq_iff_eq.mpr this
    have hgrpEq : ((((cfg.groupConf r.entity_type).getD (0, "unknown")).2
        == "unknown") : Bool) = false := by
      have := hgrp (r, a) (List.mem_cons_self _ _)
      exact beq_eq_false_iff_ne.mpr this
    show (gaerLoop cfg text al k c (r :: ps.map Prod.fst)).map (fun d => d.location)
      = expectedLocs c (a :: ps.map Prod.snd)
    unfold gaerLoop
    simp only [hne, Bool.false_eq_true, if_false, hk, htypeEq, if_true, hgrpEq,
      EntityClassifier.update_anonymized_location, List.map_cons]
    unfold expectedLocs
    congr 1
    have hal' : ∀ j, al.get? (k + 1 + j) = (ps.map Prod.snd).get? j := by
      intro j
      have := hal (j + 1)
      have harith : k + (j + 1) = k + 1 + j := by omega
      rw [harith] at this
      simpa using this
    exact ih al (k + 1) (c + 6)
      hal'
      (fun q hq => htype q (List.mem_cons_of_mem _ hq))
      (fun q hq => hgrp q (List.mem_cons_of_mem _ hq))
      hne

/-- C10 (amended): when anonymization data is present, for every accepted
candidate the reported location is the aligned anonymized entry's span in
the redacted text shifted by a hardcoded 6 per prior replacement — the
start by `6 * (number of prior replacements)` and the end additionally by
a further 6 — rather than by the cumulative placeholder-length delta. -/
theorem C10_fixed_six_shift :
    ∀ (cfg : ClassifierEnv) (text : String)
      (pairs : List (RecognizerResult × AnonEntry)),
      pairs ≠ [] →
      List.Pairwise (fun x y => x.start ≤ y.start) (pairs.map Prod.fst) →
      List.Pairwise (fun x y => x.start ≤ y.start) (pairs.map Prod.snd) →
      (∀ p ∈ pairs, p.2.entity_type = p.1.entity_type) →
      (∀ p ∈ pairs, ((cfg.groupConf p.1.entity_type).getD (0, "unknown")).2 ≠ "unknown") →
      (EntityClassifier.get_analyzed_entities_response cfg (pairs.map Prod.fst)
          (pairs.map Prod.snd) text).map (fun d => d.location)
        = expectedLocs 0 (pairs.map Prod.snd) := by
  intro cfg text pairs hne h1 h2 htype hgrp
  have hanne : (pairs.map Prod.snd).isEmpty = false := by
    cases pairs with
    | nil => exact absurd rfl hne
    | cons p ps => rfl
  unfold EntityClassifier.get_analyzed_entities_response
  rw [pySortedByKey_eq_self (fun r => r.start) (pairs.map Prod.fst) h1]
  rw [if_neg (by rw [hanne]; exact Bool.false_ne_true)]
  rw [pySortedByKey_eq_self (fun a => a.start) (pairs.map Prod.snd) h2]
  exact gaerLoop_locations cfg text pairs (pairs.map Prod.snd) 0 0
    (fun j => by simp) htype hgrp hanne

/-- C10 witness: the fixed-shift characterization applied to two aligned
replacements; the second reported location is "16_30" (= the anonymized
span `[10,18)` shifted by 6 and 12), not the spec's delta-shifted span. -/
theorem C10_fixed_six_shift_witness :
    (EntityClassifier.get_analyzed_entities_response c10env
        (([(⟨"u", 0, 4, 1⟩, ⟨"u", 0, 8⟩), (⟨"u", 5, 9, 1⟩, ⟨"u", 10, 18⟩)] :
          List (RecognizerResult × AnonEntry)).map Prod.fst)
        (([(⟨"u", 0, 4, 1⟩, ⟨"u", 0, 8⟩), (⟨"u", 5, 9, 1⟩, ⟨"u", 10, 18⟩)] :
          List (RecognizerResult × AnonEntry)).map Prod.snd)
        "YYYYYYYYYYYYYYYYYYYY").map (fun d => d.location)
      = expectedLocs 0
          (([(⟨"u", 0, 4, 1⟩, ⟨"u", 0, 8⟩), (⟨"u", 5, 9, 1⟩, ⟨"u", 10, 18⟩)] :
            List (RecognizerResult × AnonEntry)).map Prod.snd) :=
  C10_fixed_six_shift c10env "YYYYYYYYYYYYYYYYYYYY"
    [(⟨"u", 0, 4, 1⟩, ⟨"u", 0, 8⟩), (⟨"u", 5, 9, 1⟩, ⟨"u", 10, 18⟩)]
    (by decide) (by decide) (by decide) (by decide) (by decide)

/-- The running-count scan finds a qualifying run exactly when the chain
continuing from `p` reaches the threshold together with the carried count,
or some suffix starts a fresh qualifying run. -/
theorem consecScan_spec (step : Nat → Nat → Bool) (minc : Nat) :
    ∀ (l : List Nat) (p c : Nat), 1 ≤ c → c < minc →
      consecScan step minc p c l
        = (decide (minc ≤ c + chainFrom step p l)
           || l.tails.any (fun t => decide (minc ≤ runLen step t))) := by
  intro l
  induction l with
  | nil =>
    intro p c h1 h2
    have hc : decide (minc ≤ c + chainFrom step p []) = false :=
      decide_eq_false (by simp [chainFrom]; omega)
    simp [consecScan, hc, runLen]
    omega
  | cons d r ih =>
    intro p c h1 h2
    unfold consecScan
    cases hs : step p d
    · rw [if_neg Bool.false_ne_true]
      rw [ih d 1 (by omega) (by omega)]
      have hch : chainFrom step p (d :: r) = 0 := by simp [chainFrom, hs]
      rw [hch]
      have hc : decide (minc ≤ c + 0) = false := decide_eq_false (by omega)
      rw [hc]
      simp only [List.tails_cons, List.any_cons, Bool.false_or]
      rfl
    · rw [if_pos rfl]
      have hch : chainFrom step p (d :: r) = 1 + chainFrom step d r := by
        simp [chainFrom, hs]
      by_cases hth : minc ≤ c + 1
      · rw [if_pos hth, hch]
        have hc : decide (minc ≤ c + (1 + chainFrom step d r)) = true :=
          decide_eq_true (by omega)
        rw [hc]
        rfl
      · rw [if_neg hth]
        rw [ih d (c + 1) (by omega) (by omega), hch]
        simp only [List.tails_cons, List.any_cons]
        have hr : runLen step (d :: r) = 1 + chainFrom step d r := rfl
        rw [hr]
        by_cases hmid : minc ≤ 1 + chainFrom step d r
        · have ha : decide (minc ≤ c + 1 + chainFrom step d r) = true :=
            decide_eq_true (by omega)
          have hb : decide (minc ≤ c + (1 + chainFrom step d r)) = true :=
            decide_eq_true (by omega)
          have hm : decide (minc ≤ 1 + chainFrom step d r) = true :=
            decide_eq_true hmid
          rw [ha, hb, hm]
          simp
        · have hm : decide (minc ≤ 1 + chainFrom step d r) = false :=
            decide_eq_false hmid
          rw [hm]
          have harith : c + 1 + chainFrom step d r = c + (1 + chainFrom step d r) := by
            omega
          rw [harith]
          simp

/-- A chain is no longer than the list it runs over. -/
theorem chainFrom_le_length (step : Nat → Nat → Bool) :
    ∀ (l : List Nat) (p : Nat), chainFrom step p l ≤ l.length := by
  intro l
  induction l with
  | nil => intro p; simp [chainFrom]
  | cons d r ih =>
    intro p
    have h := ih d
    cases hs : step p d <;> simp [chainFrom, hs] <;> omega

/-- A maximal initial run is no longer than the list. -/
theorem runLen_le_length (step : Nat → Nat → Bool) (l : List Nat) :
    runLen step l ≤ l.length := by
  cases l with
  | nil => simp [runLen]
  | cons d r =>
    have := chainFrom_le_length step r d
    simp only [runLen, List.length_cons]
    omega

/-- The digit-run heuristics, characterized: the source scan returns
`true` exactly when the value is all digits, at least 5 characters long,
and its digit sequence contains a qualifying run of length at least 5. -/
theorem hasConsecutiveRun_spec (step : Nat → Nat → Bool) (s : String) :
    hasConsecutiveRun step s
      = (decide (5 ≤ s.length) && s.toList.all Char.isDigit
         && containsStepRun step 5 s) := by
  have hlen_eq : s.toList.all Char.isDigit = true →
      (digitVals s).length = s.length := by
    intro hall
    have h : digitChars s = s.toList := by
      unfold digitChars
      exact List.filter_eq_self.mpr (fun a ha => List.all_eq_true.mp hall a ha)
    have hm : (digitVals s).length = (digitChars s).length := List.length_map _ _
    rw [hm, h]
    rfl
  have hall_of_eq : (digitVals s).length = s.length →
      s.toList.all Char.isDigit = true := by
    intro heq
    cases hall : s.toList.all Char.isDigit
    · exfalso
      have hnot : ¬ (∀ a ∈ s.toList, Char.isDigit a = true) := by
        intro hforall
        have h := List.all_eq_true.mpr hforall
        rw [hall] at h
        exact Bool.false_ne_true h
      push_neg at hnot
      obtain ⟨a, ha, hna⟩ := hnot
      have hlt : (digitChars s).length < s.toList.length := by
        unfold digitChars
        refine List.length_filter_lt_length_iff_exists.mpr ⟨a, ha, ?_⟩
        simpa using hna
      have h1 : (digitVals s).length = (digitChars s).length := by simp [digitVals]
      have h2 : s.toList.length = s.length := rfl
      omega
    · rfl
  unfold hasConsecutiveRun
  by_cases h5 : (digitVals s).length < 5
  · rw [if_pos h5]
    cases hall : s.toList.all Char.isDigit
    · simp
    · have h5' : decide (5 ≤ s.length) = false := by
        have := hlen_eq hall
        exact decide_eq_false (by omega)
      rw [h5']
      simp
  · rw [if_neg h5]
    by_cases hne : (digitVals s).length ≠ s.length
    · rw [if_pos hne]
      cases hall : s.toList.all Char.isDigit
      · simp
      · exact absurd (hlen_eq hall) hne
    · rw [if_neg hne]
      have heq : (digitVals s).length = s.length := by omega
      have hall : s.toList.all Char.isDigit = true := hall_of_eq heq
      rw [hall]
      have h5' : decide (5 ≤ s.length) = true := decide_eq_true (by omega)
      rw [h5']
      simp only [Bool.true_and, Bool.and_true]
      unfold containsStepRun
      cases hd : digitVals s with
      | nil =>
        rw [hd] at h5
        simp at h5
      | cons d rest =>
        show consecScan step 5 d 1 rest
          = (d :: rest).tails.any fun t => decide (5 ≤ runLen step t)
        rw [consecScan_spec step 5 rest d 1 (by omega) (by omega)]
        rw [List.tails_cons, List.any_cons]
        have hr : runLen step (d :: rest) = 1 + chainFrom step d rest := rfl
        rw [hr]

/-- C6 (amended): each consecutive-digit heuristic returns true exactly
when the value consists entirely of digits, is at least 5 characters
long, and contains a run of at least 5 digits in which each digit is
respectively exactly one more than, one less than, or equal to the
previous digit; and for every numeric entity type, validation of an
all-digit value containing 6 consecutive increasing digits always
fails. -/
theorem C6_consecutive_digit_heuristics :
    (∀ s : String, has_consecutive_increasing_numbers s
        = (decide (5 ≤ s.length) && s.toList.all Char.isDigit
           && containsStepRun (fun a b => b == a + 1) 5 s))
    ∧ (∀ s : String, has_consecutive_decreasing_numbers s
        = (decide (5 ≤ s.length) && s.toList.all Char.isDigit
           && containsStepRun (fun a b => b + 1 == a) 5 s))
    ∧ (∀ s : String, has_consecutive_repetitive_numbers s
        = (decide (5 ≤ s.length) && s.toList.all Char.isDigit
           && containsStepRun (fun a b => b == a) 5 s))
    ∧ (∀ (ext : ExtLibs) (label v text : String),
        numericLabels.contains (pyLower label) = true →
        v.toList.all Char.isDigit = true →
        containsStepRun (fun a b => b == a + 1) 6 v = true →
        validate_extracted_data ext label v text = false) := by
  refine ⟨fun s => hasConsecutiveRun_spec _ s, fun s => hasConsecutiveRun_spec _ s,
    fun s => hasConsecutiveRun_spec _ s, ?_⟩
  intro ext label v text hlab hdig hrun6
  obtain ⟨t, ht, hrt⟩ := List.any_eq_true.mp hrun6
  have hrt6 : 6 ≤ runLen (fun a b => b == a + 1) t := of_decide_eq_true hrt
  have htlen : t.length ≤ (digitVals v).length :=
    ((List.mem_tails _ _).mp ht).length_le
  have hrlen := runLen_le_length (fun a b => b == a + 1) t
  have hvlen : (digitVals v).length = v.length := by
    have h : digitChars v = v.toList := by
      unfold digitChars
      exact List.filter_eq_self.mpr (fun a ha => List.all_eq_true.mp hdig a ha)
    have hm : (digitVals v).length = (digitChars v).length := List.length_map _ _
    rw [hm, h]
    rfl
  have hrun5 : containsStepRun (fun a b => b == a + 1) 5 v = true :=
    List.any_eq_true.mpr ⟨t, ht, decide_eq_true (by omega)⟩
  have hinc : has_consecutive_increasing_numbers v = true := by
    unfold has_consecutive_increasing_numbers
    rw [hasConsecutiveRun_spec]
    have h5d : (decide (5 ≤ v.length)) = true := decide_eq_true (by omega)
    rw [hdig, hrun5, h5d]
    rfl
  have e_ip1 : (label == "IP_ADDRESS") = false := by
    cases hb : label == "IP_ADDRESS"
    · rfl
    · rw [eq_of_beq hb] at hlab
      exact absurd hlab (by decide)
  have e_ip2 : (label == "ip-address") = false := by
    cases hb : label == "ip-address"
    · rfl
    · rw [eq_of_beq hb] at hlab
      exact absurd hlab (by decide)
  have e_email : (label == "email") = false := by
    cases hb : label == "email"
    · rfl
    · rw [eq_of_beq hb] at hlab
      exact absurd hlab (by decide)
  have e_name1 : (label == "name") = false := by
    cases hb : label == "name"
    · rfl
    · rw [eq_of_beq hb] at hlab
      exact absurd hlab (by decide)
  have e_name2 : (label == "PERSON") = false := by
    cases hb : label == "PERSON"
    · rfl
    · rw [eq_of_beq hb] at hlab
      exact absurd hlab (by decide)
  have e_name3 : (label == "LLM_PERSON") = false := by
    cases hb : label == "LLM_PERSON"
    · rfl
    · rw [eq_of_beq hb] at hlab
      exact absurd hlab (by decide)
  have e_dob : (label == "date_of_birth") = false := by
    cases hb : label == "date_of_birth"
    · rfl
    · rw [eq_of_beq hb] at hlab
      exact absurd hlab (by decide)
  unfold validate_extracted_data
  simp only [e_ip1, e_ip2, e_email, e_name1, e_name2, e_name3, e_dob,
    Bool.or_self, Bool.false_or, Bool.false_and, Bool.false_eq_true, if_false,
    hlab, Bool.true_and, hinc, Bool.true_or, Bool.or_true, if_true]

/-- C6 witness: the always-fails part applied to the all-digit
phone-number value "123456789" (which contains 6 consecutive increasing
digits): validation rejects it. -/
theorem C6_consecutive_digit_heuristics_witness :
    validate_extracted_data extNone "phone_number" "123456789" "x" = false :=
  C6_consecutive_digit_heuristics.2.2.2 extNone "phone_number" "123456789" "x"
    (by decide) (by decide) (by decide)

/-- On a pair ordered by start with non-empty spans — the configuration in
which `analyze_response` applies it — the source's precedence-flawed
overlap test coincides with range intersection. -/
theorem entities_overlap_eq_intersect (g e : RecognizerResult)
    (hle : g.start ≤ e.start) (hg : g.start < g.stop) (he : e.start < e.stop) :
    EntityClassifier.entities_overlap g e = spansIntersect g e := by
  unfold EntityClassifier.entities_overlap spansIntersect
  have h2 : decide (e.stop ≤ g.start) = false := decide_eq_false (by omega)
  rw [h2]
  simp only [Bool.false_and, Bool.or_false]
  by_cases h : g.stop ≤ e.start
  · have hm : (decide (max g.start e.start < min g.stop e.stop)) = false :=
      decide_eq_false (by omega)
    rw [decide_eq_true h, hm]
    rfl
  · have hm : (decide (max g.start e.start < min g.stop e.stop)) = true :=
      decide_eq_true (by omega)
    rw [decide_eq_false h, hm]
    rfl

/-- Flushing always restarts the current group with the new candidate. -/
theorem flushAndStart_current (st : PartState) (e : RecognizerResult) :
    (flushAndStart st e).current = [e] := by
  unfold flushAndStart
  split_ifs <;> rfl

/-- `partStep` on an empty current group. -/
theorem partStep_nil (no : List RecognizerResult)
    (ov : List (List RecognizerResult)) (e : RecognizerResult) :
    partStep ⟨no, ov, []⟩ e = flushAndStart ⟨no, ov, []⟩ e := rfl

/-- `specPartStep` on an empty current group. -/
theorem specPartStep_nil (no : List RecognizerResult)
    (ov : List (List RecognizerResult)) (e : RecognizerResult) :
    specPartStep ⟨no, ov, []⟩ e = flushAndStart ⟨no, ov, []⟩ e := rfl

/-- `partStep` on a non-empty current group, unfolded. -/
theorem partStep_red (no : List RecognizerResult) (ov : List (List RecognizerResult))
    (last rest : _) (e : RecognizerResult) :
    partStep ⟨no, ov, last :: rest⟩ e
      = if EntityClassifier.entities_overlap last e then
          (if last.entity_type == e.entity_type then
            ⟨no ++ [e], ov, last :: rest⟩
          else ⟨no, ov, e :: last :: rest⟩)
        else flushAndStart ⟨no, ov, last :: rest⟩ e := rfl

/-- `specPartStep` on a non-empty current group, unfolded. -/
theorem specPartStep_red (no : List RecognizerResult) (ov : List (List RecognizerResult))
    (last rest : _) (e : RecognizerResult) :
    specPartStep ⟨no, ov, last :: rest⟩ e
      = if spansIntersect last e then
          (if last.entity_type == e.entity_type then
            ⟨no ++ [e], ov, last :: rest⟩
          else ⟨no, ov, e :: last :: rest⟩)
        else flushAndStart ⟨no, ov, last :: rest⟩ e := rfl

/-- With non-empty spans and the group's last member starting no later
than the candidate, the source step and the spec step agree. -/
theorem partStep_eq_specPartStep (st : PartState) (e : RecognizerResult)
    (hcur : ∀ c ∈ st.current, c.start < c.stop)
    (hcross : ∀ c ∈ st.current, c.start ≤ e.start)
    (he : e.start < e.stop) :
    partStep st e = specPartStep st e := by
  obtain ⟨no, ov, cur⟩ := st
  cases cur with
  | nil => rfl
  | cons last rest =>
    rw [partStep_red, specPartStep_red]
    rw [entities_overlap_eq_intersect last e
      (hcross last (List.mem_cons_self _ _))
      (hcur last (List.mem_cons_self _ _)) he]

/-- The current group after a spec step is drawn from the incoming
candidate and the previous current group. -/
theorem specPartStep_current_sub (st : PartState) (e : RecognizerResult) :
    ∀ c ∈ (specPartStep st e).current, c = e ∨ c ∈ st.current := by
  obtain ⟨no, ov, cur⟩ := st
  cases cur with
  | nil =>
    intro c hc
    rw [specPartStep_nil, flushAndStart_current] at hc
    simp at hc
    exact Or.inl hc
  | cons last rest =>
    intro c hc
    rw [specPartStep_red] at hc
    by_cases hov : spansIntersect last e = true
    · rw [if_pos hov] at hc
      by_cases hty : (last.entity_type == e.entity_type) = true
      · rw [if_pos hty] at hc
        exact Or.inr hc
      · rw [if_neg hty] at hc
        exact (List.mem_cons.mp hc).imp id id
    · rw [if_neg hov] at hc
      rw [flushAndStart_current] at hc
      simp at hc
      exact Or.inl hc

/-- The fused walks of the source and spec partitions agree on a
start-sorted stream of candidates with non-empty spans. -/
theorem partition_fold_agree :
    ∀ (l : List RecognizerResult) (st : PartState),
      (∀ c ∈ st.current, c.start < c.stop) →
      (∀ c ∈ st.current, ∀ u ∈ l, c.start ≤ u.start) →
      (∀ u ∈ l, u.start < u.stop) →
      List.Pairwise (fun a b => a.start ≤ b.start) l →
      l.foldl partStep st = l.foldl specPartStep st := by
  intro l
  induction l with
  | nil => intro st _ _ _ _; rfl
  | cons e l' ih =>
    intro st hcur hcross hne hsort
    have hstep : partStep st e = specPartStep st e :=
      partStep_eq_specPartStep st e hcur
        (fun c hc => hcross c hc e (List.mem_cons_self _ _))
        (hne e (List.mem_cons_self _ _))
    rw [List.foldl_cons, List.foldl_cons, hstep]
    apply ih
    · intro c hc
      rcases specPartStep_current_sub st e c hc with h | h
      · rw [h]
        exact hne e (List.mem_cons_self _ _)
      · exact hcur c h
    · intro c hc u hu
      rcases specPartStep_current_sub st e c hc with h | h
      · rw [h]
        exact List.rel_of_pairwise_cons hsort hu
      · exact hcross c h u (List.mem_cons_of_mem _ hu)
    · exact fun u hu => hne u (List.mem_cons_of_mem _ hu)
    · exact hsort.tail

/-- C2 (amended): on every start-sorted, filter-accepted candidate stream
whose spans are non-empty, `analyze_response`'s partition walk behaves
exactly as specified with range intersection as the overlap test: the
source partition and the spec partition coincide. (On degenerate empty
spans the precedence-flawed `entities_overlap` can report an overlap
where the ranges do not intersect, and the partitions diverge.) -/
theorem C2_partition_matches_spec_on_proper_spans :
    ∀ l : List RecognizerResult,
      List.Pairwise (fun a b => a.start ≤ b.start) l →
      (∀ r ∈ l, r.start < r.stop) →
      conflictPartition l = specConflictPartition l := by
  intro l hs hn
  unfold conflictPartition specConflictPartition
  rw [partition_fold_agree l initPartState
    (by intro c hc; simp [initPartState] at hc)
    (by intro c hc; simp [initPartState] at hc)
    hn hs]

/-- C2 witness: the agreement applied to a concrete sorted stream of two
overlapping, different-type, non-empty spans. -/
theorem C2_partition_matches_spec_witness :
    conflictPartition [⟨"X", 0, 5, 1⟩, ⟨"Y", 3, 8, 1⟩]
      = specConflictPartition [⟨"X", 0, 5, 1⟩, ⟨"Y", 3, 8, 1⟩] :=
  C2_partition_matches_spec_on_proper_spans _ (by decide) (by decide)

/-- Tagged flushing also restarts the current group with the candidate. -/
theorem flushAndStartT_current (st : TPartState) (e : RecognizerResult) :
    (flushAndStartT st e).current = [e] := by
  unfold flushAndStartT
  split_ifs <;> rfl

/-- `partStepT` on an empty current group. -/
theorem partStepT_nil (no : List (RecognizerResult × AcceptTag))
    (ov : List (List RecognizerResult)) (e : RecognizerResult) :
    partStepT ⟨no, ov, []⟩ e = flushAndStartT ⟨no, ov, []⟩ e := rfl

/-- `partStepT` on a non-empty current group, unfolded. -/
theorem partStepT_red (no : List (RecognizerResult × AcceptTag))
    (ov : List (List RecognizerResult)) (last rest : _) (e : RecognizerResult) :
    partStepT ⟨no, ov, last :: rest⟩ e
      = if EntityClassifier.entities_overlap last e then
          (if last.entity_type == e.entity_type then
            ⟨no ++ [(e, AcceptTag.fastPath)], ov, last :: rest⟩
          else ⟨no, ov, e :: last :: rest⟩)
        else flushAndStartT ⟨no, ov, last :: rest⟩ e := rfl

/-- Erasing the tags of a tagged flush yields the source flush. -/
theorem eraseT_flushAndStartT (st : TPartState) (e : RecognizerResult) :
    eraseT (flushAndStartT st e) = flushAndStart (eraseT st) e := by
  unfold flushAndStartT flushAndStart eraseT
  split_ifs <;> simp [List.map_append, List.map_map, Function.comp_def]

/-- Erasing the tags of a tagged step yields the source step. -/
theorem eraseT_partStepT (st : TPartState) (e : RecognizerResult) :
    eraseT (partStepT st e) = partStep (eraseT st) e := by
  obtain ⟨no, ov, cur⟩ := st
  cases cur with
  | nil =>
    rw [partStepT_nil]
    rw [show partStep (eraseT ⟨no, ov, []⟩) e = flushAndStart (eraseT ⟨no, ov, []⟩) e from rfl]
    exact eraseT_flushAndStartT _ _
  | cons last rest =>
    rw [partStepT_red]
    rw [show eraseT ⟨no, ov, last :: rest⟩
        = (⟨no.map Prod.fst, ov, last :: rest⟩ : PartState) from rfl]
    rw [partStep_red]
    by_cases hov : EntityClassifier.entities_overlap last e = true
    · rw [if_pos hov, if_pos hov]
      by_cases hty : (last.entity_type == e.entity_type) = true
      · rw [if_pos hty, if_pos hty]
        simp [eraseT]
      · rw [if_neg hty, if_neg hty]
        rfl
    · rw [if_neg hov, if_neg hov]
      exact eraseT_flushAndStartT ⟨no, ov, last :: rest⟩ e

/-- Erasing the tags of the tagged trailing flush yields the source
trailing flush. -/
theorem finalFlushT_erase (st : TPartState) :
    ((finalFlushT st).1.map Prod.fst, (finalFlushT st).2) = finalFlush (eraseT st) := by
  unfold finalFlushT finalFlush eraseT
  split_ifs <;> simp [List.map_append, List.map_map, Function.comp_def]

/-- The filtered tagged walk erases to the filtered source walk. -/
theorem foldT_erase (accept : RecognizerResult → Bool) :
    ∀ (l : List RecognizerResult) (stT : TPartState),
      eraseT (l.foldl
        (fun st entity => if accept entity then partStepT st entity else st) stT)
        = l.foldl
            (fun st entity => if accept entity then partStep st entity else st)
            (eraseT stT) := by
  intro l
  induction l with
  | nil => intro stT; rfl
  | cons e l' ih =>
    intro stT
    rw [List.foldl_cons, List.foldl_cons]
    by_cases ha : accept e = true
    · rw [if_pos ha, if_pos ha, ih, eraseT_partStepT]
    · rw [if_neg ha, if_neg ha, ih]

/-- The instrumented `analyzeTagged` is the source `analyze_response` with
tags attached: erasing the tags (and deduplicating) recovers it. -/
theorem analyzeTagged_erase (cfg : ClassifierEnv) (text : String) :
    EntityClassifier.analyze_response cfg text
      = ((analyzeTagged cfg text).map Prod.fst).eraseDups := by
  have herase := foldT_erase (acceptCandidate cfg text)
    (pySortedByKey (fun r => r.start) (cfg.detector text)) ⟨[], [], []⟩
  have hinit : eraseT (⟨[], [], []⟩ : TPartState) = initPartState := rfl
  rw [hinit] at herase
  have hp := finalFlushT_erase
    ((pySortedByKey (fun r => r.start) (cfg.detector text)).foldl
      (fun st entity => if acceptCandidate cfg text entity then partStepT st entity else st)
      ⟨[], [], []⟩)
  simp only [EntityClassifier.analyze_response, analyzeTagged]
  rw [← herase, ← hp]
  simp [List.map_append, List.map_map, Function.comp_def]

/-- The current group after a tagged step is drawn from the incoming
candidate and the previous current group. -/
theorem partStepT_current_sub (st : TPartState) (e : RecognizerResult) :
    ∀ c ∈ (partStepT st e).current, c = e ∨ c ∈ st.current := by
  obtain ⟨no, ov, cur⟩ := st
  cases cur with
  | nil =>
    intro c hc
    rw [partStepT_nil, flushAndStartT_current] at hc
    simp at hc
    exact Or.inl hc
  | cons last rest =>
    intro c hc
    rw [partStepT_red] at hc
    by_cases hov : EntityClassifier.entities_overlap last e = true
    · rw [if_pos hov] at hc
      by_cases hty : (last.entity_type == e.entity_type) = true
      · rw [if_pos hty] at hc
        exact Or.inr hc
      · rw [if_neg hty] at hc
        exact (List.mem_cons.mp hc).imp id id
    · rw [if_neg hov] at hc
      rw [flushAndStartT_current] at hc
      simp at hc
      exact Or.inl hc

/-- The tagged step preserves the grouping invariant when the candidate
has a non-empty span starting no earlier than every current member. -/
theorem partStepT_TInv (st : TPartState) (e : RecognizerResult)
    (hinv : TInv st)
    (hcross : ∀ c ∈ st.current, c.start ≤ e.start)
    (he : e.start < e.stop) :
    TInv (partStepT st e) := by
  obtain ⟨hpw, hsing, hcur, hemp⟩ := hinv
  obtain ⟨no, ov, cur⟩ := st
  simp only at hpw hsing hcur hemp hcross
  cases cur with
  | nil =>
    have hno : no = [] := hemp rfl
    subst hno
    rw [partStepT_nil]
    show TInv ⟨[], ov, [e]⟩
    refine ⟨by simp, by simp, ?_, by simp⟩
    intro c hc
    simp at hc
    rw [hc]
    exact he
  | cons last rest =>
    rw [partStepT_red]
    by_cases hov : EntityClassifier.entities_overlap last e = true
    · rw [if_pos hov]
      by_cases hty : (last.entity_type == e.entity_type) = true
      · rw [if_pos hty]
        refine ⟨?_, ?_, hcur, fun h => absurd h (List.cons_ne_nil _ _)⟩
        · rw [List.pairwise_append]
          refine ⟨hpw, List.pairwise_singleton _ _, ?_⟩
          intro p _ q hq
          simp at hq
          rw [hq]
          intro _ habs
          exact absurd habs (by simp)
        · intro p hp hps
          rcases List.mem_append.mp hp with hpo | hpe
          · exact hsing p hpo hps
          · simp at hpe
            rw [hpe] at hps
            exact absurd hps (by simp)
      · rw [if_neg hty]
        refine ⟨hpw, ?_, ?_, fun h => absurd h (List.cons_ne_nil _ _)⟩
        · intro p hp hps
          obtain ⟨hspan, hstops⟩ := hsing p hp hps
          refine ⟨hspan, ?_⟩
          intro c hc
          rcases List.mem_cons.mp hc with hce | hcold
          · rw [hce]
            calc p.1.stop ≤ last.start := hstops last (List.mem_cons_self _ _)
              _ ≤ e.start := hcross last (List.mem_cons_self _ _)
          · exact hstops c hcold
        · intro c hc
          rcases List.mem_cons.mp hc with hce | hcold
          · rw [hce]; exact he
          · exact hcur c hcold
    · rw [if_neg hov]
      cases rest with
      | nil =>
        have hred : flushAndStartT ⟨no, ov, [last]⟩ e
            = ⟨no ++ [last].map (fun r => (r, AcceptTag.singleFlush)), ov, [e]⟩ := rfl
        rw [hred]
        have hA : last.stop ≤ e.start := by
          by_contra hA
          apply hov
          unfold EntityClassifier.entities_overlap
          have h1' : decide (last.stop ≤ e.start) = false := decide_eq_false hA
          have h2' : decide (e.stop ≤ last.start) = false := by
            have hl1 : last.start ≤ e.start := hcross last (List.mem_cons_self _ _)
            exact decide_eq_false (by omega)
          rw [h1', h2']
          rfl
        have hlspan : last.start < last.stop := hcur last (List.mem_cons_self _ _)
        refine ⟨?_, ?_, ?_, by simp⟩
        · rw [List.pairwise_append]
          refine ⟨hpw, by simp [List.pairwise_singleton], ?_⟩
          intro p hp q hq
          simp at hq
          rw [hq]
          intro hps _
          obtain ⟨hspan, hstops⟩ := hsing p hp hps
          exact ⟨hstops last (List.mem_cons_self _ _), hspan, hlspan⟩
        · intro p hp hps
          rcases List.mem_append.mp hp with hpo | hpe
          · obtain ⟨hspan, hstops⟩ := hsing p hpo hps
            refine ⟨hspan, ?_⟩
            intro c hc
            simp at hc
            rw [hc]
            calc p.1.stop ≤ last.start := hstops last (List.mem_cons_self _ _)
              _ ≤ e.start := hcross last (List.mem_cons_self _ _)
          · simp at hpe
            rw [hpe]
            refine ⟨hlspan, ?_⟩
            intro c hc
            simp at hc
            rw [hc]
            exact hA
        · intro c hc
          simp at hc
          rw [hc]
          exact he
      | cons r2 rs =>
        have hred : flushAndStartT ⟨no, ov, last :: r2 :: rs⟩ e
            = ⟨no, ov ++ [(last :: r2 :: rs).reverse], [e]⟩ := by
          unfold flushAndStartT
          rw [if_pos (by simp)]
        rw [hred]
        refine ⟨hpw, ?_, ?_, by simp⟩
        · intro p hp hps
          obtain ⟨hspan, hstops⟩ := hsing p hp hps
          refine ⟨hspan, ?_⟩
          intro c hc
          simp at hc
          rw [hc]
          calc p.1.stop ≤ last.start := hstops last (List.mem_cons_self _ _)
            _ ≤ e.start := hcross last (List.mem_cons_self _ _)
        · intro c hc
          simp at hc
          rw [hc]
          exact he

/-- The filtered tagged walk preserves the grouping invariant over a
start-sorted stream of candidates with non-empty spans. -/
theorem foldT_TInv (accept : RecognizerResult → Bool) :
    ∀ (l : List RecognizerResult) (st : TPartState),
      List.Pairwise (fun a b => a.start ≤ b.start) l →
      (∀ u ∈ l, u.start < u.stop) →
      (∀ c ∈ st.current, ∀ u ∈ l, c.start ≤ u.start) →
      TInv st →
      TInv (l.foldl (fun st e => if accept e then partStepT st e else st) st) := by
  intro l
  induction l with
  | nil => intro st _ _ _ hinv; exact hinv
  | cons e l' ih =>
    intro st hsort hne hcross hinv
    rw [List.foldl_cons]
    by_cases ha : accept e = true
    · rw [if_pos ha]
      apply ih
      · exact hsort.tail
      · exact fun u hu => hne u (List.mem_cons_of_mem _ hu)
      · intro c hc u hu
        rcases partStepT_current_sub st e c hc with h | h
        · rw [h]
          exact List.rel_of_pairwise_cons hsort hu
        · exact hcross c h u (List.mem_cons_of_mem _ hu)
      · exact partStepT_TInv st e hinv
          (fun c hc => hcross c hc e (List.mem_cons_self _ _))
          (hne e (List.mem_cons_self _ _))
    · rw [if_neg ha]
      apply ih
      · exact hsort.tail
      · exact fun u hu => hne u (List.mem_cons_of_mem _ hu)
      · exact fun c hc u hu => hcross c hc u (List.mem_cons_of_mem _ hu)
      · exact hinv

/-- The trailing flush of an invariant state yields pairwise-compatible
accepted results. -/
theorem finalFlushT_pairwise (st : TPartState) (hinv : TInv st) :
    List.Pairwise RelT (finalFlushT st).1 := by
  obtain ⟨hpw, hsing, hcur, _⟩ := hinv
  obtain ⟨no, ov, cur⟩ := st
  simp only at hpw hsing hcur
  cases cur with
  | nil => exact hpw
  | cons last rest =>
    cases rest with
    | nil =>
      have hred : finalFlushT ⟨no, ov, [last]⟩
          = (no ++ [last].map (fun r => (r, AcceptTag.singleFlush)), ov) := rfl
      rw [hred]
      simp only
      rw [List.pairwise_append]
      refine ⟨hpw, by simp [List.pairwise_singleton], ?_⟩
      intro p hp q hq
      simp at hq
      rw [hq]
      intro hps _
      obtain ⟨hspan, hstops⟩ := hsing p hp hps
      exact ⟨hstops last (List.mem_cons_self _ _), hspan,
        hcur last (List.mem_cons_self _ _)⟩
    | cons r2 rs =>
      have hred : finalFlushT ⟨no, ov, last :: r2 :: rs⟩
          = (no, ov ++ [(last :: r2 :: rs).reverse]) := by
        unfold finalFlushT
        rw [if_pos (by simp)]
      rw [hred]
      exact hpw

/-- Arbitrated results are pairwise compatible with everything. -/
theorem pairwise_arbitrated (l : List RecognizerResult) :
    List.Pairwise RelT (l.map (fun r => (r, AcceptTag.arbitrated))) := by
  induction l with
  | nil => simp
  | cons a l ih =>
    simp only [List.map_cons]
    refine List.Pairwise.cons ?_ ih
    intro q _
    intro habs
    exact absurd habs (by simp)

/-- The full tagged result list is pairwise compatible. -/
theorem analyzeTagged_pairwise (cfg : ClassifierEnv) (text : String)
    (hspans : ∀ r ∈ cfg.detector text, r.start < r.stop) :
    List.Pairwise RelT (analyzeTagged cfg text) := by
  have hsorted := pySortedByKey_pairwise (fun r : RecognizerResult => r.start)
    (cfg.detector text)
  have hspans' : ∀ u ∈ pySortedByKey (fun r : RecognizerResult => r.start)
      (cfg.detector text), u.start < u.stop := by
    intro u hu
    exact hspans u ((mem_pySortedByKey _ u _).mp hu)
  have hfold := foldT_TInv (acceptCandidate cfg text)
    (pySortedByKey (fun r => r.start) (cfg.detector text)) ⟨[], [], []⟩
    hsorted hspans' (by intro c hc; simp at hc)
    ⟨by simp, by simp, by simp, fun _ => rfl⟩
  have hflush := finalFlushT_pairwise _ hfold
  unfold analyzeTagged
  rw [List.pairwise_append]
  refine ⟨hflush, pairwise_arbitrated _, ?_⟩
  intro p _ q hq
  rcases List.mem_map.mp hq with ⟨r, _, hr⟩
  rw [← hr]
  intro _ habs
  exact absurd habs (by simp)

/-- C1 (amended): erasing the tags of `analyzeTagged` recovers
`analyze_response`; and when all detected spans are non-empty, no two
distinct results accepted as singleton-group flushes have intersecting
spans (in particular no two such results of different entity types
overlap). Results admitted through the same-type fast path or through
arbitration may overlap accepted results of other types. -/
theorem C1_single_flush_results_disjoint :
    (∀ (cfg : ClassifierEnv) (text : String),
        EntityClassifier.analyze_response cfg text
          = ((analyzeTagged cfg text).map Prod.fst).eraseDups)
    ∧ (∀ (cfg : ClassifierEnv) (text : String),
        (∀ r ∈ cfg.detector text, r.start < r.stop) →
        ∀ r1 r2 : RecognizerResult,
          (r1, AcceptTag.singleFlush) ∈ analyzeTagged cfg text →
          (r2, AcceptTag.singleFlush) ∈ analyzeTagged cfg text →
          r1 ≠ r2 → spansIntersect r1 r2 = false) := by
  refine ⟨analyzeTagged_erase, ?_⟩
  intro cfg text hspans r1 r2 h1 h2 hne
  have hpw := analyzeTagged_pairwise cfg text hspans
  have hpw' : List.Pairwise (fun p q => RelT p q ∨ RelT q p) (analyzeTagged cfg text) :=
    hpw.imp Or.inl
  have hsym : Symmetric (fun p q => RelT p q ∨ RelT q p) := fun a b h => h.symm
  have hpairne : (r1, AcceptTag.singleFlush) ≠ (r2, AcceptTag.singleFlush) :=
    fun h => hne (congrArg Prod.fst h)
  have hrel := hpw'.forall hsym h1 h2 hpairne
  rcases hrel with h | h
  · obtain ⟨hst, hs1, hs2⟩ := h rfl rfl
    unfold spansIntersect
    exact decide_eq_false (by simp only at hst hs1 hs2; omega)
  · obtain ⟨hst, hs1, hs2⟩ := h rfl rfl
    unfold spansIntersect
    exact decide_eq_false (by simp only at hst hs1 hs2; omega)

/-- C1 witness: the disjointness of singleton-flush results applied to a
concrete run in which both accepted candidates are singleton flushes. -/
theorem C1_single_flush_results_disjoint_witness :
    spansIntersect ⟨"X", 0, 5, 1⟩ ⟨"Y", 6, 9, 1⟩ = false :=
  C1_single_flush_results_disjoint.2 c1wenv "t"
    (by decide) ⟨"X", 0, 5, 1⟩ ⟨"Y", 6, 9, 1⟩ (by decide) (by decide) (by decide)
